import Mathlib

/-!
# Verification of the UC_GA unit-commitment genetic algorithm

This file gives a shallow embedding, over `ℚ`, of the core functions of the
UC_GA repository (economic dispatch, schedule codecs, fitness components,
genetic operators and the GA driver) and proves properties of them.

Conventions of the embedding:
* numpy float arrays are modelled as `List ℚ` (1-D) and `List (List ℚ)`
  (2-D, row major: a `T × N` schedule is a list of `T` rows of `N` cells);
* the pandas `gen_info` data frame is a `List GenInfo`, one record per row,
  with one field per column that the code reads;
* random draws are passed in explicitly as arguments (a value for every call
  the Python code makes to `np.random`), so every possible outcome of the
  randomness corresponds to some choice of those arguments;
* the potentially non-terminating bisection loop of `lambda_iteration` takes
  a `fuel : ℕ` argument and returns `none` when the loop has not exited
  within `fuel` iterations (the Python loop has no such bound).
-/

namespace UCGA

/-- One row of the `gen_info` data frame: the columns of
`data/kazarlis_units.csv` that the code reads (see `main.py`). -/
structure GenInfo where
  a : ℚ
  b : ℚ
  c : ℚ
  min_output : ℚ
  max_output : ℚ
  t_min_down : ℚ
  t_min_up : ℚ
  hot_cost : ℚ
  cold_cost : ℚ
  cold_hrs : ℚ
deriving Repr, DecidableEq

/-! ## economic_dispatch.py -/

/-- `calculate_loads(lm, a, b, mins, maxs, num_gen)`: generator outputs as a
function of lambda; `p = (lm - b[i])/a[i]` clipped below to `mins[i]` and
above to `maxs[i]`.  The callers always pass `num_gen = len(a)`. -/
def calculate_loads (lm : ℚ) (a b mins maxs : List ℚ) : List ℚ :=
  (List.range a.length).map (fun i =>
    let p := (lm - b.getD i 0) / a.getD i 0
    if p < mins.getD i 0 then mins.getD i 0
    else if p > maxs.getD i 0 then maxs.getD i 0
    else p)

/-- The `while abs(total_output - load) > epsilon` loop of `lambda_iteration`,
with explicit state `(lambda_low, lambda_high, lambda_mid, total_output)` and
a fuel bound (the Python loop is unbounded). -/
def lambda_iteration_loop (fuel : ℕ) (load lambda_low lambda_high lambda_mid
    total_output : ℚ) (a b mins maxs : List ℚ) (epsilon : ℚ) :
    Option (List ℚ) :=
  match fuel with
  | 0 => none
  | fuel + 1 =>
    if |total_output - load| > epsilon then
      let mid := (lambda_high + lambda_low) / 2
      let total := (calculate_loads mid a b mins maxs).sum
      if total - load > 0 then
        lambda_iteration_loop fuel load lambda_low mid mid total a b mins maxs epsilon
      else
        lambda_iteration_loop fuel load mid lambda_high mid total a b mins maxs epsilon
    else
      some (calculate_loads lambda_mid a b mins maxs)

/-- `lambda_iteration(load, lambda_low, lambda_high, a, b, mins, maxs, epsilon)`:
bisection on lambda; starts with `lambda_mid = 0` and the total output
evaluated at `lambda_high`. -/
def lambda_iteration (fuel : ℕ) (load lambda_low lambda_high : ℚ)
    (a b mins maxs : List ℚ) (epsilon : ℚ) : Option (List ℚ) :=
  lambda_iteration_loop fuel load lambda_low lambda_high 0
    ((calculate_loads lambda_high a b mins maxs).sum) a b mins maxs epsilon

/-- The online rows of `gen_info`:
`idx = np.where(schedule > 0)` followed by `gen_info[...][idx]`. -/
def online_units (gen_info : List GenInfo) (schedule : List ℚ) : List GenInfo :=
  ((gen_info.zip schedule).filter (fun gs => gs.2 > 0)).map Prod.fst

/-- The scatter `disp = np.zeros(N); for (i, e) in zip(idx, econ): disp[i] = e`:
walk the schedule cells, emitting the next `econ` value at each online
position and `0` at each offline position. -/
def scatter_dispatch : List ℚ → List ℚ → List ℚ
  | [], _ => []
  | s :: ss, econ =>
    if s > 0 then econ.headD 0 :: scatter_dispatch ss econ.tail
    else 0 :: scatter_dispatch ss econ

/-- `economic_dispatch_period(gen_info, schedule, demand)`: single-period
dispatch with the two infeasible branches and the lambda-iteration branch
(`lambda_lo = 0`, `lambda_hi = 30`, `epsilon = 0.1`). -/
def economic_dispatch_period (fuel : ℕ) (gen_info : List GenInfo)
    (schedule : List ℚ) (demand : ℚ) : Option (List ℚ × ℚ) :=
  let ons := online_units gen_info schedule
  let on_a := ons.map GenInfo.a
  let on_b := ons.map GenInfo.b
  let on_min := ons.map GenInfo.min_output
  let on_max := ons.map GenInfo.max_output
  if on_max.sum < demand then
    some (scatter_dispatch schedule on_max, demand - on_max.sum)
  else if on_min.sum > demand then
    some (scatter_dispatch schedule on_min, on_min.sum - demand)
  else
    (lambda_iteration fuel demand 0 30 on_a on_b on_min on_max (1/10)).map
      (fun econ => (scatter_dispatch schedule econ, 0))

/-- `economic_dispatch(gen_info, schedule, demand)`: per-period dispatch rows
and the accumulated energy not served, iterating `t` over the demand
profile. -/
def economic_dispatch (fuel : ℕ) (gen_info : List GenInfo) :
    List (List ℚ) → List ℚ → Option (List (List ℚ) × ℚ)
  | _, [] => some ([], 0)
  | sched, d :: ds =>
    match economic_dispatch_period fuel gen_info (sched.headD []) d,
          economic_dispatch fuel gen_info sched.tail ds with
    | some (disp_t, ens_t), some (disp, ens) => some (disp_t :: disp, ens_t + ens)
    | _, _ => none

/-! ## helpers.py -/

/-- `convert_to_binary(integer_schedule)`:
`np.where(integer_schedule > 0, 1, 0)`, elementwise. -/
def convert_to_binary (integer_schedule : List (List ℚ)) : List (List ℚ) :=
  integer_schedule.map (fun row => row.map (fun x => if x > 0 then (1 : ℚ) else 0))

/-- Inner loop of `convert_to_integer` for one period: cellwise over the
current binary row `b1`, the previous integer row `i0` and the previous
binary row `b0`. -/
def integer_row : List ℚ → List ℚ → List ℚ → List ℚ
  | b1 :: b1s, i0 :: i0s, b0 :: b0s =>
    (if b0 = b1 then i0 + (if b1 > 0 then 1 else -1)
     else if b0 > b1 then -1
     else 1) :: integer_row b1s i0s b0s
  | _, _, _ => []

/-- Outer loop of `convert_to_integer` over periods: threads the previous
integer row and the previous binary row. -/
def convert_to_integer_go : List (List ℚ) → List ℚ → List ℚ → List (List ℚ)
  | [], _, _ => []
  | row :: rows, prev_int, prev_bin =>
    let r := integer_row row prev_int prev_bin
    r :: convert_to_integer_go rows r row

/-- `convert_to_integer(binary_schedule, init_status)`: at `t = 0` the
previous integer row is `init_status` and the previous binary row is
`np.where(init_status > 0, 1, 0)`. -/
def convert_to_integer (binary_schedule : List (List ℚ)) (init_status : List ℚ) :
    List (List ℚ) :=
  convert_to_integer_go binary_schedule init_status
    (init_status.map (fun x => if x > 0 then 1 else 0))

example : convert_to_integer [[1], [1], [0], [0], [1]] [3] =
    [[4], [5], [-1], [-2], [1]] := by
  norm_num [convert_to_integer, convert_to_integer_go, integer_row]

example : lambda_iteration 1 (599/20) 0 30 [1] [0] [0] [30] (1/10) = some [0] := by
  norm_num [lambda_iteration, lambda_iteration_loop, calculate_loads, List.range_succ,
    abs_of_nonneg, abs_of_nonpos]

example : lambda_iteration 2 15 0 30 [1] [0] [0] [30] (1/10) = some [15] := by
  norm_num [lambda_iteration, lambda_iteration_loop, calculate_loads, List.range_succ]

example : economic_dispatch_period 0
    [⟨1, 0, 0, 10, 20, 1, 1, 100, 500, 3⟩] [1] 30 = some ([20], 10) := by
  norm_num [economic_dispatch_period, online_units, scatter_dispatch]

/-! ## Lemmas about dispatch -/

theorem online_units_nil_left (schedule : List ℚ) : online_units [] schedule = [] := rfl

theorem online_units_nil_right (gen_info : List GenInfo) : online_units gen_info [] = [] := by
  simp [online_units]

theorem online_units_cons (g : GenInfo) (gen_info : List GenInfo) (s : ℚ)
    (schedule : List ℚ) :
    online_units (g :: gen_info) (s :: schedule) =
      if s > 0 then g :: online_units gen_info schedule
      else online_units gen_info schedule := by
  by_cases hs : s > 0 <;> simp [online_units, List.filter_cons, hs]

/-- Scattering the per-online-unit values `f` back into the fleet gives, at
each position, `f` of the unit if the unit is online and `0` otherwise. -/
theorem scatter_dispatch_online_map (f : GenInfo → ℚ) :
    ∀ (gen_info : List GenInfo) (schedule : List ℚ),
      gen_info.length = schedule.length →
      scatter_dispatch schedule ((online_units gen_info schedule).map f) =
        (gen_info.zip schedule).map (fun gs => if gs.2 > 0 then f gs.1 else 0)
  | [], [], _ => rfl
  | g :: gen_info, s :: schedule, h => by
    have ih := scatter_dispatch_online_map f gen_info schedule (by simpa using h)
    by_cases hs : s > 0 <;>
      simp [online_units_cons, scatter_dispatch, hs, ih]

/-- Offline positions of a scattered dispatch are `0`. -/
theorem scatter_dispatch_offline :
    ∀ (schedule econ : List ℚ) (i : ℕ), schedule.getD i 0 ≤ 0 →
      (scatter_dispatch schedule econ).getD i 0 = 0
  | [], _, _, _ => by simp [scatter_dispatch]
  | s :: schedule, econ, 0, h => by
    have hs : ¬ s > 0 := by simpa using h
    simp [scatter_dispatch, hs]
  | s :: schedule, econ, i + 1, h => by
    by_cases hs : s > 0 <;>
      simpa [scatter_dispatch, hs] using
        scatter_dispatch_offline schedule _ i (by simpa using h)

/-- C2: in the shortfall branch every online unit dispatches exactly at its
maximum and `energyNotServed = demand - Σmax`; in the oversupply branch every
online unit dispatches exactly at its minimum and
`energyNotServed = Σmin - demand`; in every branch offline units output `0`;
the two infeasible branches return a value (no error) for any fuel. -/
theorem economic_dispatch_period_infeasible_spec
    (fuel : ℕ) (gen_info : List GenInfo) (schedule : List ℚ) (demand : ℚ)
    (hlen : gen_info.length = schedule.length) :
    (((online_units gen_info schedule).map GenInfo.max_output).sum < demand →
      economic_dispatch_period fuel gen_info schedule demand =
        some ((gen_info.zip schedule).map
            (fun gs => if gs.2 > 0 then gs.1.max_output else 0),
          demand - ((online_units gen_info schedule).map GenInfo.max_output).sum)) ∧
    (¬ ((online_units gen_info schedule).map GenInfo.max_output).sum < demand →
      ((online_units gen_info schedule).map GenInfo.min_output).sum > demand →
      economic_dispatch_period fuel gen_info schedule demand =
        some ((gen_info.zip schedule).map
            (fun gs => if gs.2 > 0 then gs.1.min_output else 0),
          ((online_units gen_info schedule).map GenInfo.min_output).sum - demand)) ∧
    (∀ disp ens,
      economic_dispatch_period fuel gen_info schedule demand = some (disp, ens) →
      ∀ i, schedule.getD i 0 ≤ 0 → disp.getD i 0 = 0) := by
  refine ⟨fun hmax => ?_, fun hmax hmin => ?_, fun disp ens hsome i hoff => ?_⟩
  · simp [economic_dispatch_period, hmax, scatter_dispatch_online_map _ _ _ hlen]
  · simp [economic_dispatch_period, hmax, hmin, scatter_dispatch_online_map _ _ _ hlen]
  · simp only [economic_dispatch_period] at hsome
    split at hsome
    · have hd : scatter_dispatch schedule
          ((online_units gen_info schedule).map GenInfo.max_output) = disp :=
        congrArg Prod.fst (Option.some.inj hsome)
      exact hd ▸ scatter_dispatch_offline _ _ i hoff
    · split at hsome
      · have hd : scatter_dispatch schedule
            ((online_units gen_info schedule).map GenInfo.min_output) = disp :=
          congrArg Prod.fst (Option.some.inj hsome)
        exact hd ▸ scatter_dispatch_offline _ _ i hoff
      · rw [Option.map_eq_some'] at hsome
        obtain ⟨econ, -, heq⟩ := hsome
        have hd : scatter_dispatch schedule econ = disp := congrArg Prod.fst heq
        exact hd ▸ scatter_dispatch_offline _ _ i hoff

/-- Witness for C2: a one-unit fleet with `max_output = 20` facing demand `30`
dispatches at `20` with `energyNotServed = 10`. -/
theorem economic_dispatch_period_infeasible_spec_witness :
    economic_dispatch_period 0 [⟨1, 0, 0, 10, 20, 1, 1, 100, 500, 3⟩] [1] 30 =
      some ([20], 10) := by
  have h := economic_dispatch_period_infeasible_spec 0
    [⟨1, 0, 0, 10, 20, 1, 1, 100, 500, 3⟩] [1] 30 (by norm_num)
  have h1 := h.1 (by norm_num [online_units, List.filter_cons])
  norm_num [online_units, List.filter_cons] at h1
  exact h1

/-! ## Binarisation invariance of dispatch (C10) -/

theorem online_units_map_binarize :
    ∀ (gen_info : List GenInfo) (row : List ℚ),
      online_units gen_info (row.map (fun x => if x > 0 then (1 : ℚ) else 0)) =
        online_units gen_info row
  | [], _ => rfl
  | _ :: _, [] => rfl
  | g :: gs, x :: xs => by
    by_cases hx : x > 0 <;>
      simp [online_units_cons, hx, online_units_map_binarize gs xs]

theorem scatter_dispatch_map_binarize :
    ∀ (row econ : List ℚ),
      scatter_dispatch (row.map (fun x => if x > 0 then (1 : ℚ) else 0)) econ =
        scatter_dispatch row econ
  | [], _ => rfl
  | x :: xs, econ => by
    by_cases hx : x > 0 <;>
      simp [scatter_dispatch, hx, scatter_dispatch_map_binarize xs]

theorem economic_dispatch_period_binarize (fuel : ℕ) (gen_info : List GenInfo)
    (row : List ℚ) (demand : ℚ) :
    economic_dispatch_period fuel gen_info
        (row.map (fun x => if x > 0 then (1 : ℚ) else 0)) demand =
      economic_dispatch_period fuel gen_info row demand := by
  simp only [economic_dispatch_period, online_units_map_binarize,
    scatter_dispatch_map_binarize]

theorem economic_dispatch_binarize_aux (fuel : ℕ) (gen_info : List GenInfo) :
    ∀ (demand : List ℚ) (schedule : List (List ℚ)),
      economic_dispatch fuel gen_info (convert_to_binary schedule) demand =
        economic_dispatch fuel gen_info schedule demand
  | [], _ => rfl
  | d :: ds, schedule => by
    have h1 : (convert_to_binary schedule).headD [] =
        (schedule.headD []).map (fun x => if x > 0 then (1 : ℚ) else 0) := by
      cases schedule <;> simp [convert_to_binary]
    have h2 : (convert_to_binary schedule).tail = convert_to_binary schedule.tail := by
      cases schedule <;> simp [convert_to_binary]
    simp only [economic_dispatch, h1, h2, economic_dispatch_period_binarize,
      economic_dispatch_binarize_aux fuel gen_info ds schedule.tail]

/-- C10: economic dispatch is invariant under binarisation of the schedule —
each period treats a unit as online iff its cell is strictly positive, so an
integer-encoded schedule and its binary projection dispatch identically. -/
theorem economic_dispatch_binarisation_invariant (fuel : ℕ)
    (gen_info : List GenInfo) (schedule : List (List ℚ)) (demand : List ℚ) :
    economic_dispatch fuel gen_info (convert_to_binary schedule) demand =
      economic_dispatch fuel gen_info schedule demand :=
  economic_dispatch_binarize_aux fuel gen_info demand schedule

/-! ## Lambda iteration: partial correctness (C1) and non-termination (C5) -/

/-- On the instance `a = [1]`, `b = [100]`, `mins = [0]`, `maxs = [10]`, every
lambda below the hard-coded bound `30` yields the clipped output `[0]`. -/
theorem calculate_loads_stuck (lm : ℚ) (h : lm ≤ 30) :
    calculate_loads lm [1] [100] [0] [10] = [0] := by
  simp [calculate_loads, List.range_succ]
  intro hc
  exfalso
  linarith

theorem lambda_iteration_stuck_loop :
    ∀ (fuel : ℕ) (lo hi mid total : ℚ), 0 ≤ lo → lo ≤ 30 → 0 ≤ hi → hi ≤ 30 →
      |total - 10| > 1/10 →
      lambda_iteration_loop fuel 10 lo hi mid total [1] [100] [0] [10] (1/10) = none
  | 0, _, _, _, _, _, _, _, _, _ => rfl
  | fuel + 1, lo, hi, mid, total, hlo0, hlo30, hhi0, hhi30, hguard => by
    have hmid0 : (0 : ℚ) ≤ (hi + lo) / 2 := by linarith
    have hmid30 : (hi + lo) / 2 ≤ 30 := by linarith
    have hguard0 : |(0 : ℚ) - 10| > 1/10 := by
      rw [abs_of_nonpos (by norm_num)]; norm_num
    simp only [lambda_iteration_loop, if_pos hguard, calculate_loads_stuck _ hmid30]
    norm_num
    exact lambda_iteration_stuck_loop fuel _ _ _ _ hmid0 hmid30 hhi0 hhi30 hguard0

/-- C5 exhibit: on the feasible instance `a = 1`, `b = 100`,
`[min, max] = [0, 10]`, `demand = 10` (so `Σmin ≤ demand ≤ Σmax`), the
marginal cost `b = 100` exceeds the hard-coded lambda upper bound `30`, the
bisection can never reach `epsilon`, and the unbounded Python `while` loop
never exits and never raises: for every fuel the embedding returns `none`. -/
theorem lambda_iteration_unbounded_loop (fuel : ℕ) :
    lambda_iteration fuel 10 0 30 [1] [100] [0] [10] (1/10) = none := by
  have h0 : calculate_loads 30 [1] [100] [0] [10] = [0] := calculate_loads_stuck 30 le_rfl
  rw [lambda_iteration, h0]
  have hguard0 : |([(0 : ℚ)].sum) - 10| > 1/10 := by
    simp only [List.sum_cons, List.sum_nil, add_zero]
    rw [abs_of_nonpos (by norm_num)]; norm_num
  exact lambda_iteration_stuck_loop fuel 0 30 0 _ le_rfl (by norm_num) (by norm_num)
    le_rfl hguard0

/-- Each output of `calculate_loads` is clipped into `[mins i, maxs i]`. -/
theorem calculate_loads_bounds (lm : ℚ) (a b mins maxs : List ℚ) (i : ℕ)
    (hia : i < a.length) (hmm : mins.getD i 0 ≤ maxs.getD i 0) :
    mins.getD i 0 ≤ (calculate_loads lm a b mins maxs).getD i 0 ∧
      (calculate_loads lm a b mins maxs).getD i 0 ≤ maxs.getD i 0 := by
  have hval : (calculate_loads lm a b mins maxs).getD i 0 =
      (if (lm - b.getD i 0) / a.getD i 0 < mins.getD i 0 then mins.getD i 0
       else if (lm - b.getD i 0) / a.getD i 0 > maxs.getD i 0 then maxs.getD i 0
       else (lm - b.getD i 0) / a.getD i 0) := by
    simp [calculate_loads, List.getD, List.getElem?_map, List.getElem?_range, hia]
  rw [hval]
  split_ifs with h1 h2 <;> constructor <;> linarith

/-- Whatever `lambda_iteration_loop` returns is `calculate_loads` at some
lambda. -/
theorem lambda_iteration_loop_shape :
    ∀ (fuel : ℕ) (load lo hi mid total : ℚ) (a b mins maxs : List ℚ)
      (eps : ℚ) (p : List ℚ),
      lambda_iteration_loop fuel load lo hi mid total a b mins maxs eps = some p →
      ∃ lm, p = calculate_loads lm a b mins maxs
  | 0, _, _, _, _, _, _, _, _, _, _, _, h => by simp [lambda_iteration_loop] at h
  | fuel + 1, load, lo, hi, mid, total, a, b, mins, maxs, eps, p, h => by
    simp only [lambda_iteration_loop] at h
    split at h
    · split at h
      · exact lambda_iteration_loop_shape fuel _ _ _ _ _ a b mins maxs eps p h
      · exact lambda_iteration_loop_shape fuel _ _ _ _ _ a b mins maxs eps p h
    · exact ⟨mid, (Option.some.inj h).symm⟩

/-- If the loop is entered with the invariant
`total = (calculate_loads mid).sum`, any returned vector sums to within
`epsilon` of the load. -/
theorem lambda_iteration_loop_epsilon :
    ∀ (fuel : ℕ) (load lo hi mid : ℚ) (a b mins maxs : List ℚ) (eps : ℚ) (p : List ℚ),
      lambda_iteration_loop fuel load lo hi mid
          ((calculate_loads mid a b mins maxs).sum) a b mins maxs eps = some p →
      |p.sum - load| ≤ eps
  | 0, _, _, _, _, _, _, _, _, _, _, h => by simp [lambda_iteration_loop] at h
  | fuel + 1, load, lo, hi, mid, a, b, mins, maxs, eps, p, h => by
    simp only [lambda_iteration_loop] at h
    split at h
    · split at h
      · exact lambda_iteration_loop_epsilon fuel load _ _ _ a b mins maxs eps p h
      · exact lambda_iteration_loop_epsilon fuel load _ _ _ a b mins maxs eps p h
    · rw [← Option.some.inj h]
      next hguard => exact le_of_not_lt hguard

/-- C1 amended: whenever `lambda_iteration` returns, each output lies in
`[min_i, max_i]`; and provided the bisection loop is actually entered (the
total output at `lambda_high` misses the load by more than `epsilon`), the
returned outputs sum to within `epsilon` of the load.  (As stated the claim
is false: when the initial total at `lambda_high` is already within
`epsilon`, the code returns `calculate_loads` at `lambda_mid = 0`, whose sum
can be arbitrarily far from the demand — see the counterexample.) -/
theorem lambda_iteration_partial_spec (fuel : ℕ) (load lo hi : ℚ)
    (a b mins maxs : List ℚ) (eps : ℚ) (p : List ℚ)
    (hret : lambda_iteration fuel load lo hi a b mins maxs eps = some p) :
    (∀ i, i < a.length → mins.getD i 0 ≤ maxs.getD i 0 →
      mins.getD i 0 ≤ p.getD i 0 ∧ p.getD i 0 ≤ maxs.getD i 0) ∧
    (|(calculate_loads hi a b mins maxs).sum - load| > eps →
      |p.sum - load| ≤ eps) := by
  constructor
  · intro i hia hmm
    obtain ⟨lm, rfl⟩ :=
      lambda_iteration_loop_shape fuel load lo hi 0 _ a b mins maxs eps p hret
    exact calculate_loads_bounds lm a b mins maxs i hia hmm
  · intro hguard
    cases fuel with
    | zero => simp [lambda_iteration, lambda_iteration_loop] at hret
    | succ n =>
      rw [lambda_iteration] at hret
      simp only [lambda_iteration_loop, if_pos hguard] at hret
      split at hret
      · exact lambda_iteration_loop_epsilon n load _ _ _ a b mins maxs eps p hret
      · exact lambda_iteration_loop_epsilon n load _ _ _ a b mins maxs eps p hret

/-- Witness for the amended C1 on a converging instance:
`a = [1]`, `b = [0]`, bounds `[0, 30]`, demand `15`: the iteration returns
`[15]`, inside the bounds and meeting the demand exactly. -/
theorem lambda_iteration_partial_spec_witness :
    ((0 : ℚ) ≤ 15 ∧ (15 : ℚ) ≤ 30) ∧ |([(15 : ℚ)].sum) - 15| ≤ 1/10 := by
  have h := lambda_iteration_partial_spec 2 15 0 30 [1] [0] [0] [30] (1/10) [15]
    (by norm_num [lambda_iteration, lambda_iteration_loop, calculate_loads,
      List.range_succ, abs_of_nonneg, abs_of_nonpos])
  refine ⟨?_, h.2 (by norm_num [calculate_loads, List.range_succ, abs_of_nonneg])⟩
  simpa using h.1 0 (by norm_num) (by norm_num)

/-- C1 counterexample: with one generator (`a = 1 > 0`, `b = 0`,
`[min, max] = [0, 30]`) and demand `599/20 = 29.95` (so
`Σmin ≤ demand ≤ Σmax`), the initial total at `lambda_high = 30` is within
`epsilon = 0.1` of the demand, the loop never runs, and the code returns the
outputs at `lambda_mid = 0`, namely `[0]`: its sum misses the demand by
`29.95 > epsilon`. -/
theorem lambda_iteration_epsilon_counterexample :
    (0 : ℚ) < 1 ∧ ((0 : ℚ) ≤ 599/20 ∧ (599/20 : ℚ) ≤ 30) ∧
    lambda_iteration 1 (599/20) 0 30 [1] [0] [0] [30] (1/10) = some [0] ∧
    ¬ |([(0 : ℚ)].sum) - 599/20| ≤ 1/10 := by
  refine ⟨by norm_num, ⟨by norm_num, by norm_num⟩, ?_, ?_⟩
  · norm_num [lambda_iteration, lambda_iteration_loop, calculate_loads,
      List.range_succ, abs_of_nonneg, abs_of_nonpos]
  · simp only [List.sum_cons, List.sum_nil, add_zero, zero_sub, abs_neg, not_le]
    rw [abs_of_nonneg (by norm_num)]; norm_num

/-! ## Codec round trip (C7) -/

theorem forall₂_getD {α β : Type} (d1 : α) (d2 : β) {R : α → β → Prop} :
    ∀ {as : List α} {bs : List β}, List.Forall₂ R as bs →
      ∀ i, i < as.length → R (as.getD i d1) (bs.getD i d2) := by
  intro as bs h
  induction h with
  | nil => intro i hi; simp at hi
  | cons hR _ ih =>
    intro i hi
    cases i with
    | zero => simpa using hR
    | succ i => simpa using ih i (by simpa using hi)

theorem convert_to_binary_getD :
    ∀ (u : List (List ℚ)) (t : ℕ),
      (convert_to_binary u).getD t [] =
        (u.getD t []).map (fun x => if x > 0 then (1 : ℚ) else 0)
  | [], _ => by simp [convert_to_binary]
  | _ :: _, 0 => rfl
  | _ :: u, t + 1 => convert_to_binary_getD u t

theorem binarize_row_getD :
    ∀ (r : List ℚ) (n : ℕ),
      (r.map (fun x => if x > 0 then (1 : ℚ) else 0)).getD n 0 =
        if 0 < r.getD n 0 then 1 else 0
  | [], n => by simp
  | x :: r, 0 => rfl
  | x :: r, n + 1 => binarize_row_getD r n

/-- Sign behaviour of one `convert_to_integer` period: if the current binary
row and previous binary row are 0/1-valued and the previous integer row is
positive at online cells and nonpositive at offline cells, then the produced
integer row is strictly positive exactly at the online cells of the current
binary row and strictly negative at its offline cells. -/
theorem integer_row_sign :
    ∀ (b1s i0s b0s : List ℚ),
      (∀ x ∈ b1s, x = 0 ∨ x = 1) → (∀ x ∈ b0s, x = 0 ∨ x = 1) →
      b1s.length = b0s.length →
      List.Forall₂ (fun b0 i0 => (b0 > 0 → i0 > 0) ∧ (b0 ≤ 0 → i0 ≤ 0)) b0s i0s →
      List.Forall₂ (fun b1 i1 => (b1 > 0 → i1 > 0) ∧ (b1 ≤ 0 → i1 < 0)) b1s
        (integer_row b1s i0s b0s)
  | [], i0s, b0s, _, _, _, _ => by
    cases i0s <;> cases b0s <;> exact List.Forall₂.nil
  | b1 :: b1s, i0s, b0s, hb1, hb0, hlen, hprev => by
    cases b0s with
    | nil => simp at hlen
    | cons b0 b0s =>
      cases hprev with
      | cons hp hps =>
        rename_i i0 i0s
        refine List.Forall₂.cons ?_ ?_
        · have hb1' := hb1 b1 (by simp)
          have hb0' := hb0 b0 (by simp)
          rcases hb1' with rfl | rfl <;> rcases hb0' with rfl | rfl
          · refine ⟨fun h => absurd h (by norm_num), fun _ => ?_⟩
            have h2 := hp.2 le_rfl
            norm_num
            linarith
          · refine ⟨fun h => absurd h (by norm_num), fun _ => ?_⟩
            norm_num
          · refine ⟨fun _ => ?_, fun h => absurd h (by norm_num)⟩
            norm_num
          · refine ⟨fun _ => ?_, fun h => absurd h (by norm_num)⟩
            have h1 := hp.1 (by norm_num)
            norm_num
            linarith
        · exact integer_row_sign b1s i0s b0s (fun x hx => hb1 x (by simp [hx]))
            (fun x hx => hb0 x (by simp [hx])) (by simpa using hlen) hps

theorem convert_to_integer_go_sign :
    ∀ (rows : List (List ℚ)) (prev_int prev_bin : List ℚ),
      (∀ r ∈ rows, ∀ x ∈ r, x = 0 ∨ x = 1) →
      (∀ r ∈ rows, r.length = prev_bin.length) →
      (∀ x ∈ prev_bin, x = 0 ∨ x = 1) →
      List.Forall₂ (fun b0 i0 => (b0 > 0 → i0 > 0) ∧ (b0 ≤ 0 → i0 ≤ 0))
        prev_bin prev_int →
      List.Forall₂
        (List.Forall₂ (fun b1 i1 => (b1 > 0 → i1 > 0) ∧ (b1 ≤ 0 → i1 < 0)))
        rows (convert_to_integer_go rows prev_int prev_bin)
  | [], _, _, _, _, _, _ => List.Forall₂.nil
  | row :: rows, prev_int, prev_bin, hbin, hlen, hpbin, hprev => by
    have hrow : List.Forall₂ (fun b1 i1 => (b1 > 0 → i1 > 0) ∧ (b1 ≤ 0 → i1 < 0))
        row (integer_row row prev_int prev_bin) :=
      integer_row_sign row prev_int prev_bin (hbin row (by simp)) hpbin
        (hlen row (by simp)) hprev
    refine List.Forall₂.cons hrow ?_
    exact convert_to_integer_go_sign rows (integer_row row prev_int prev_bin) row
      (fun r hr => hbin r (by simp [hr]))
      (fun r hr => (hlen r (by simp [hr])).trans (hlen row (by simp)).symm)
      (hbin row (by simp))
      (List.Forall₂.imp (fun _ _ h => ⟨h.1, fun hb => le_of_lt (h.2 hb)⟩) hrow)

theorem binarize_prev_ok :
    ∀ (init : List ℚ),
      List.Forall₂ (fun b0 i0 => (b0 > 0 → i0 > 0) ∧ (b0 ≤ 0 → i0 ≤ 0))
        (init.map (fun x => if x > 0 then (1 : ℚ) else 0)) init
  | [] => List.Forall₂.nil
  | x :: init => by
    refine List.Forall₂.cons ?_ (binarize_prev_ok init)
    by_cases hx : x > 0
    · simp only [if_pos hx]
      exact ⟨fun _ => hx, fun h => absurd h (by norm_num)⟩
    · simp only [if_neg hx]
      exact ⟨fun h => absurd h (by norm_num), fun _ => le_of_not_lt hx⟩

/-- C7: `convert_to_binary` maps each cell to `1` iff the integer value is
strictly positive and to `0` otherwise (total, no failure mode); for every
integer schedule `s` with no zero cells whose rows match `init_status` in
width, the round trip `convert_to_integer (convert_to_binary s) init_status`
preserves the sign of every cell; and the spec's example holds:
`initStatus = [3]` with binary column `[1,1,0,0,1]` yields the integer column
`[4,5,-1,-2,1]`. -/
theorem convert_codec_sign_round_trip (s : List (List ℚ)) (init_status : List ℚ)
    (hshape : ∀ r ∈ s, r.length = init_status.length)
    (hnz : ∀ r ∈ s, ∀ x ∈ r, x ≠ 0) :
    (∀ (u : List (List ℚ)) (t n : ℕ),
      ((convert_to_binary u).getD t []).getD n 0 =
        if 0 < (u.getD t []).getD n 0 then 1 else 0) ∧
    (∀ t, t < s.length → ∀ n, n < (s.getD t []).length →
      ((0 < (s.getD t []).getD n 0 ↔
        0 < ((convert_to_integer (convert_to_binary s) init_status).getD t
            []).getD n 0) ∧
       ((s.getD t []).getD n 0 < 0 ↔
        ((convert_to_integer (convert_to_binary s) init_status).getD t
            []).getD n 0 < 0))) ∧
    convert_to_integer [[1], [1], [0], [0], [1]] [3] =
      [[4], [5], [-1], [-2], [1]] := by
  refine ⟨fun u t n => by rw [convert_to_binary_getD, binarize_row_getD], ?_, ?_⟩
  · have hF := convert_to_integer_go_sign (convert_to_binary s) init_status
      (init_status.map (fun x => if x > 0 then (1 : ℚ) else 0))
      (by
        intro r hr x hx
        obtain ⟨r0, -, rfl⟩ := List.mem_map.mp hr
        obtain ⟨y, -, rfl⟩ := List.mem_map.mp hx
        by_cases hy : y > 0 <;> simp [hy])
      (by
        intro r hr
        obtain ⟨r0, hr0, rfl⟩ := List.mem_map.mp hr
        simp [hshape r0 hr0])
      (by
        intro x hx
        obtain ⟨y, -, rfl⟩ := List.mem_map.mp hx
        by_cases hy : y > 0 <;> simp [hy])
      (binarize_prev_ok init_status)
    intro t ht n hn
    have hlen_t : t < (convert_to_binary s).length := by
      simpa [convert_to_binary] using ht
    have hrowF := forall₂_getD [] [] hF t hlen_t
    have hrow_eq := convert_to_binary_getD s t
    rw [hrow_eq] at hrowF
    have hlen_n : n < ((s.getD t []).map
        (fun x => if x > 0 then (1 : ℚ) else 0)).length := by simpa using hn
    have hQ := forall₂_getD 0 0 hrowF n hlen_n
    rw [binarize_row_getD] at hQ
    have hx_mem : (s.getD t []).getD n 0 ∈ s.getD t [] := by
      rw [List.getD_eq_getElem _ _ hn]
      exact List.getElem_mem hn
    have hrow_mem : s.getD t [] ∈ s := by
      rw [List.getD_eq_getElem _ _ ht]
      exact List.getElem_mem ht
    have hxnz : (s.getD t []).getD n 0 ≠ 0 := hnz _ hrow_mem _ hx_mem
    set x := (s.getD t []).getD n 0 with hxdef
    set i := ((convert_to_integer (convert_to_binary s) init_status).getD t
      []).getD n 0 with hidef
    by_cases hx : 0 < x
    · have hi : 0 < i := hQ.1 (by simp [hx])
      exact ⟨⟨fun _ => hi, fun _ => hx⟩,
        ⟨fun h => absurd h (by linarith), fun h => absurd h (by linarith)⟩⟩
    · have hxneg : x < 0 := lt_of_le_of_ne (le_of_not_lt hx) hxnz
      have hi : i < 0 := hQ.2 (by simp [hx])
      exact ⟨⟨fun h => absurd h hx, fun h => absurd h (by linarith)⟩,
        ⟨fun _ => hi, fun _ => hxneg⟩⟩
  · norm_num [convert_to_integer, convert_to_integer_go, integer_row]

/-- Witness for C7: `s = [[5], [-2]]`, `init_status = [1]`: the round trip
turns it into `[[2], [-1]]`, matching the signs cell by cell. -/
theorem convert_codec_sign_round_trip_witness :
    ((0 : ℚ) < 5 ↔
      0 < ((convert_to_integer (convert_to_binary [[5], [-2]]) [1]).getD 0
          []).getD 0 0) ∧
    (((-2) : ℚ) < 0 ↔
      ((convert_to_integer (convert_to_binary [[5], [-2]]) [1]).getD 1
          []).getD 0 0 < 0) := by
  have h := convert_codec_sign_round_trip [[5], [-2]] [1]
    (by intro r hr; simp at hr; rcases hr with rfl | rfl <;> rfl)
    (by
      intro r hr x hx
      simp at hr
      rcases hr with rfl | rfl <;> simp at hx <;> subst hx <;> norm_num)
  constructor
  · have h1 := (h.2.1 0 (by norm_num) 0 (by norm_num)).1
    simpa using h1
  · have h2 := (h.2.1 1 (by norm_num) 0 (by norm_num)).2
    simpa using h2

/-! ## fitness.py: start costs (C3) and constraint costs (C4) -/

/-- Per-unit start cost of `calculate_start_costs_period`: on a start event
(`[action, prev_action] == [1, 0]`) the source charges `hot_cost` when
`abs(prev_status[i]) <= -cold_hrs[i]` (the comparison written on the line
marked `#####` in `fitness.py`) and `cold_cost` otherwise. -/
def start_cost_unit (g : GenInfo) (s p : ℚ) : ℚ :=
  if s > 0 ∧ ¬ p > 0 then
    (if |p| ≤ -g.cold_hrs then g.hot_cost else g.cold_cost)
  else 0

/-- `calculate_start_costs_period(gen_info, status, prev_status)`. -/
def calculate_start_costs_period : List GenInfo → List ℚ → List ℚ → List ℚ
  | g :: gs, s :: ss, p :: ps =>
    start_cost_unit g s p :: calculate_start_costs_period gs ss ps
  | _, _, _ => []

/-- The loop of `calculate_start_costs`: the previous status is
`init_status` at `t = 0` and `schedule[t-1]` afterwards; each entry is the
`np.sum` of the period's start costs. -/
def calculate_start_costs_go (gen_info : List GenInfo) :
    List (List ℚ) → List ℚ → List ℚ
  | [], _ => []
  | row :: rows, prev =>
    (calculate_start_costs_period gen_info row prev).sum ::
      calculate_start_costs_go gen_info rows row

/-- `calculate_start_costs(gen_info, schedule, init_status)`. -/
def calculate_start_costs (gen_info : List GenInfo) (schedule : List (List ℚ))
    (init_status : List ℚ) : List ℚ :=
  calculate_start_costs_go gen_info schedule init_status

/-- Minimum-down-time violation count of
`calculate_constraint_costs_period`: start events with
`abs(prev_status) < t_min_down`. -/
def count_min_down : List GenInfo → List ℚ → List ℚ → ℕ
  | g :: gs, s :: ss, p :: ps =>
    (if s > 0 ∧ ¬ p > 0 ∧ |p| < g.t_min_down then 1 else 0) +
      count_min_down gs ss ps
  | _, _, _ => 0

/-- Minimum-up-time violation count of `calculate_constraint_costs_period`:
stop events with `abs(prev_status) < t_min_up`, where the source assigns
`t_min_up = gen_info['t_min_down'].to_numpy()` — it reads the `t_min_down`
column — so the threshold below is `g.t_min_down`. -/
def count_min_up : List GenInfo → List ℚ → List ℚ → ℕ
  | g :: gs, s :: ss, p :: ps =>
    (if ¬ s > 0 ∧ p > 0 ∧ |p| < g.t_min_down then 1 else 0) +
      count_min_up gs ss ps
  | _, _, _ => 0

/-- `np.dot(action, gen_info['max_output'])`. -/
def action_dot_max : List GenInfo → List ℚ → ℚ
  | g :: gs, s :: ss => (if s > 0 then g.max_output else 0) + action_dot_max gs ss
  | _, _ => 0

/-- `calculate_constraint_costs_period(gen_info, status, prev_status,
penalty, reserve_margin, demand_period)`. -/
def calculate_constraint_costs_period (gen_info : List GenInfo)
    (status prev_status : List ℚ) (penalty reserve_margin demand_period : ℚ) : ℚ :=
  let min_down_count := count_min_down gen_info status prev_status
  let min_up_count := count_min_up gen_info status prev_status
  let reserve_violation : ℕ :=
    if action_dot_max gen_info status < (1 + reserve_margin) * demand_period
    then 1 else 0
  ((min_down_count + min_up_count + reserve_violation : ℕ) : ℚ) * penalty

/-- The loop of `calculate_constraint_costs` over periods. -/
def calculate_constraint_costs_go (gen_info : List GenInfo)
    (penalty reserve_margin : ℚ) :
    List (List ℚ) → List ℚ → List ℚ → List ℚ
  | row :: rows, prev, d :: ds =>
    calculate_constraint_costs_period gen_info row prev penalty reserve_margin d ::
      calculate_constraint_costs_go gen_info penalty reserve_margin rows row ds
  | _, _, _ => []

/-- `calculate_constraint_costs(integer_schedule, gen_info, init_status,
penalty, demand, reserve_margin)`. -/
def calculate_constraint_costs (integer_schedule : List (List ℚ))
    (gen_info : List GenInfo) (init_status : List ℚ) (penalty : ℚ)
    (demand : List ℚ) (reserve_margin : ℚ) : List ℚ :=
  calculate_constraint_costs_go gen_info penalty reserve_margin
    integer_schedule init_status demand

/-- C3 exhibit (code bug): with `cold_hrs = 3`, `hot_cost = 100`,
`cold_cost = 500`, a unit offline for 2 periods that starts is charged `500`,
not the `100` that the spec — and the repository's own `main.py`
documentation, "hot start if downtime <= cold_hrs" — prescribe.  The source
compares `abs(prev_status) <= -cold_hrs`, which is false for every positive
`cold_hrs`, so every start is billed as cold.  (A unit offline 4 periods is
also charged `500`, which coincides with the claim.)  The third conjunct
shows the same at the schedule level across the `initStatus` boundary. -/
theorem calculate_start_costs_always_cold :
    calculate_start_costs_period [⟨1, 0, 0, 0, 10, 1, 1, 100, 500, 3⟩]
        [1] [-2] = [500] ∧
    calculate_start_costs_period [⟨1, 0, 0, 0, 10, 1, 1, 100, 500, 3⟩]
        [1] [-4] = [500] ∧
    calculate_start_costs [⟨1, 0, 0, 0, 10, 1, 1, 100, 500, 3⟩] [[1]] [-2] =
      [500] := by
  refine ⟨?_, ?_, ?_⟩ <;>
    norm_num [calculate_start_costs, calculate_start_costs_go,
      calculate_start_costs_period, start_cost_unit, abs_of_nonpos]

/-- C4 exhibit (code bug): the source reads the minimum-up-time threshold
from the `t_min_down` column (`t_min_up = gen_info['t_min_down']`), so a
stop is penalized iff the preceding online run-length is below `t_min_down`,
not `t_min_up`.  First conjunct: a unit with `t_min_up = 5`, `t_min_down =
2` that stops after being online 3 periods is not counted (the claim says it
must be: `3 < 5`).  Second conjunct: a unit with `t_min_up = 5`,
`t_min_down = 7` that stops after 6 online periods is counted (the claim
says it must not be: `6 ≥ 5`).  Reserve and min-down terms are zero in both
instances (demand 0, the penalty is 1). -/
theorem calculate_constraint_costs_min_up_reads_min_down :
    calculate_constraint_costs_period [⟨1, 0, 0, 0, 10, 2, 5, 100, 500, 3⟩]
        [0] [3] 1 0 0 = 0 ∧
    calculate_constraint_costs_period [⟨1, 0, 0, 0, 10, 7, 5, 100, 500, 3⟩]
        [0] [6] 1 0 0 = 1 := by
  constructor <;>
    norm_num [calculate_constraint_costs_period, count_min_down, count_min_up,
      action_dot_max, abs_of_nonneg]

/-! ## operators.py: crossover (C6), mutate / window_mutation frame effects (C8) -/

/-- Indexed map, used to describe numpy column-slice writes cellwise. -/
def map_with_index_from {α β : Type} (f : ℕ → α → β) : ℕ → List α → List β
  | _, [] => []
  | k, x :: xs => f k x :: map_with_index_from f (k + 1) xs

/-- Cell `(t, n)` of a row-major schedule. -/
def cell (s : List (List ℚ)) (t n : ℕ) : ℚ := (s.getD t []).getD n 0

/-- `crossover(binary_schedule1, binary_schedule2, crossover_probability)`
with the random draws explicit: `crossover_point ∈ [0, T)` and one uniform
per generator column in `rands`.  On a column `n` with
`rands[n] < crossover_probability` the source executes
`offspring1[0:c, n] = binary_schedule2[0:c, n]` and
`offspring2[c:, n] = binary_schedule1[c:, n]` on copies of the parents;
other columns are left as copied. -/
def crossover_offspring1 (b1 b2 : List (List ℚ)) (crossover_point : ℕ)
    (rands : List ℚ) (crossover_probability : ℚ) : List (List ℚ) :=
  map_with_index_from (fun t row =>
    map_with_index_from (fun n x =>
      if rands.getD n 1 < crossover_probability ∧ t < crossover_point then
        cell b2 t n
      else x) 0 row) 0 b1

def crossover_offspring2 (b1 b2 : List (List ℚ)) (crossover_point : ℕ)
    (rands : List ℚ) (crossover_probability : ℚ) : List (List ℚ) :=
  map_with_index_from (fun t row =>
    map_with_index_from (fun n x =>
      if rands.getD n 1 < crossover_probability ∧ crossover_point ≤ t then
        cell b1 t n
      else x) 0 row) 0 b2

def crossover (binary_schedule1 binary_schedule2 : List (List ℚ))
    (crossover_point : ℕ) (rands : List ℚ) (crossover_probability : ℚ) :
    List (List ℚ) × List (List ℚ) :=
  (crossover_offspring1 binary_schedule1 binary_schedule2 crossover_point
    rands crossover_probability,
   crossover_offspring2 binary_schedule1 binary_schedule2 crossover_point
    rands crossover_probability)

/-- `mutate(binary_schedule, mutation_probability)` with the uniform random
matrix explicit (in the source it always has the schedule's shape;
out-of-range draws read as `0` here).  Where `random < mutation_probability`
the cell becomes `not x` under numpy truthiness, i.e. `1` exactly when the
cell was `0`.  Line 39 of `operators.py` assigns through the caller's array
and line 41 returns that same array, so the embedding returns the pair
(returned schedule, contents of the input buffer after the call). -/
def mutate_result (binary_schedule : List (List ℚ))
    (random_matrix : List (List ℚ)) (mutation_probability : ℚ) :
    List (List ℚ) :=
  map_with_index_from (fun t row =>
    map_with_index_from (fun n x =>
      if (random_matrix.getD t []).getD n 0 < mutation_probability then
        (if x = 0 then 1 else 0)
      else x) 0 row) 0 binary_schedule

def mutate (binary_schedule : List (List ℚ)) (random_matrix : List (List ℚ))
    (mutation_probability : ℚ) : List (List ℚ) × List (List ℚ) :=
  (mutate_result binary_schedule random_matrix mutation_probability,
   mutate_result binary_schedule random_matrix mutation_probability)

/-- `window_mutation(binary_schedule)` with the draws explicit: a sorted
window `[w1, w2)`, a generator column and the value `zero_or_one`.  The
source sets `new_binary_schedule = binary_schedule` (no copy) and assigns
into the window, so the result aliases the input: the embedding returns
(returned schedule, contents of the input buffer after the call). -/
def window_mutation_result (binary_schedule : List (List ℚ)) (w1 w2 : ℕ)
    (gen : ℕ) (zero_or_one : ℚ) : List (List ℚ) :=
  map_with_index_from (fun t row =>
    map_with_index_from (fun n x =>
      if w1 ≤ t ∧ t < w2 ∧ n = gen then zero_or_one else x) 0 row) 0
    binary_schedule

def window_mutation (binary_schedule : List (List ℚ)) (w1 w2 : ℕ) (gen : ℕ)
    (zero_or_one : ℚ) : List (List ℚ) × List (List ℚ) :=
  (window_mutation_result binary_schedule w1 w2 gen zero_or_one,
   window_mutation_result binary_schedule w1 w2 gen zero_or_one)

/-- `swap_window(binary_schedule)` with the draws explicit: swaps the
schedules of columns `g1` and `g2` inside the window `[w1, w2)` on a copy
(`np.copy`) of the input; the input buffer is left unchanged, so the
embedding returns (returned schedule, contents of the input buffer after
the call). -/
def swap_window_result (binary_schedule : List (List ℚ)) (w1 w2 : ℕ)
    (g1 g2 : ℕ) : List (List ℚ) :=
  map_with_index_from (fun t row =>
    map_with_index_from (fun n x =>
      if w1 ≤ t ∧ t < w2 then
        (if n = g1 then cell binary_schedule t g2
         else if n = g2 then cell binary_schedule t g1
         else x)
      else x) 0 row) 0 binary_schedule

def swap_window (binary_schedule : List (List ℚ)) (w1 w2 : ℕ) (g1 g2 : ℕ) :
    List (List ℚ) × List (List ℚ) :=
  (swap_window_result binary_schedule w1 w2 g1 g2, binary_schedule)

/-- C6 exhibit (code bug): parents `[[0],[0]]` and `[[1],[1]]` (T = 2, one
generator column), cut point `c = 1`, the column triggered
(`rand = 0 < 1/2`).  Both returned offspring equal `[[1],[0]]` — parent 2's
prefix with parent 1's suffix — so no offspring carries parent 1's prefix
with parent 2's suffix (`[[0],[1]]`), although the claim (and the
function's own docstring, "use schedule 1 up to the crossover point, and
schedule 2 past the crossover point") requires the two complementary
offspring. -/
theorem crossover_no_complementary_offspring :
    (crossover [[0], [0]] [[1], [1]] 1 [0] (1/2)).1 = [[1], [0]] ∧
    (crossover [[0], [0]] [[1], [1]] 1 [0] (1/2)).2 = [[1], [0]] ∧
    ([[1], [0]] : List (List ℚ)) ≠ [[0], [1]] := by
  refine ⟨?_, ?_, by norm_num⟩ <;>
    norm_num [crossover, crossover_offspring1, crossover_offspring2,
      map_with_index_from, cell]

/-- C8 counterexample: `mutate` on the schedule `[[0]]` with random matrix
`[[0]]` and mutation probability `1/2` flips the bit in place: after the
call the caller's buffer holds `[[1]]`, not the original `[[0]]`; likewise
`window_mutation` with window `[0,1)` writing `1` into column `0`. -/
theorem mutate_window_mutation_modify_input :
    (mutate [[0]] [[0]] (1/2)).2 ≠ [[0]] ∧
    (window_mutation [[0]] 0 1 0 1).2 ≠ [[0]] := by
  constructor <;>
    norm_num [mutate, mutate_result, window_mutation,
      window_mutation_result, map_with_index_from]

/-- C8 amended: `mutate` and `window_mutation` work in place — after the
call the caller's schedule buffer holds exactly the returned (mutated)
schedule, not the original — while `swap_window` (like `crossover`, which
builds its offspring on `np.copy`s) leaves its input buffer unchanged. -/
theorem operators_frame_effects (s rm : List (List ℚ)) (p z : ℚ)
    (w1 w2 g g1 g2 : ℕ) :
    (mutate s rm p).2 = (mutate s rm p).1 ∧
    (window_mutation s w1 w2 g z).2 = (window_mutation s w1 w2 g z).1 ∧
    (swap_window s w1 w2 g1 g2).2 = s :=
  ⟨rfl, rfl, rfl⟩

/-! ## fitness.py: fuel costs and schedule fitness (used by the GA driver) -/

/-- One unit's production cost in `calculate_costs_period`: `0` for a unit
with zero output, else `n_hrs * (a*x^2 + b*x + c)`. -/
def cost_unit (g : GenInfo) (output n_hrs : ℚ) : ℚ :=
  if output = 0 then 0 else n_hrs * (g.a * output ^ 2 + g.b * output + g.c)

/-- `calculate_costs_period(outputs, gen_info, n_hrs)`. -/
def calculate_costs_period : List ℚ → List GenInfo → ℚ → List ℚ
  | o :: os, g :: gs, n_hrs => cost_unit g o n_hrs :: calculate_costs_period os gs n_hrs
  | _, _, _ => []

/-- `calculate_fuel_costs(dispatch, gen_info, n_hrs)`: per-period sums. -/
def calculate_fuel_costs (dispatch : List (List ℚ)) (gen_info : List GenInfo)
    (n_hrs : ℚ) : List ℚ :=
  dispatch.map (fun row => (calculate_costs_period row gen_info n_hrs).sum)

/-- The keyword arguments threaded through the GA (`all_kwargs` in
`main.py`). -/
structure GAParams where
  gen_info : List GenInfo
  demand : List ℚ
  voll : ℚ
  init_status : List ℚ
  constraint_penalty : ℚ
  reserve_margin : ℚ
  n_hrs : ℚ
  max_penalty : ℚ
  pop_size : ℕ
  mutation_probability : ℚ
  crossover_probability : ℚ
  swap_window_probability : ℚ
  window_mutation_probability : ℚ
  swap_window_hc_probability : ℚ
deriving Repr, DecidableEq

/-- `calculate_schedule_fitness(schedule, **kwargs)`: fuel costs + lost load
(`ens * voll`) + start costs + constraint costs; `none` when the dispatch's
lambda iteration does not finish within the fuel. -/
def calculate_schedule_fitness (fuel : ℕ) (P : GAParams)
    (schedule : List (List ℚ)) : Option ℚ :=
  (economic_dispatch fuel P.gen_info schedule P.demand).map (fun de =>
    (calculate_fuel_costs de.1 P.gen_info P.n_hrs).sum + de.2 * P.voll +
    (calculate_start_costs P.gen_info schedule P.init_status).sum +
    (calculate_constraint_costs schedule P.gen_info P.init_status
      P.constraint_penalty P.demand P.reserve_margin).sum)

/-! ## genotype.py -/

/-- A `Genotype`: an integer-encoded schedule and its fitness, computed at
construction time. -/
structure Genotype where
  schedule : List (List ℚ)
  fitness : ℚ
deriving Repr, DecidableEq

instance : Inhabited Genotype := ⟨⟨[], 0⟩⟩

/-- `Genotype(schedule, **kwargs)`: builds the genotype, evaluating its
fitness. -/
def make_genotype (fuel : ℕ) (P : GAParams) (schedule : List (List ℚ)) :
    Option Genotype :=
  (calculate_schedule_fitness fuel P schedule).map (fun f => ⟨schedule, f⟩)

/-- `best_two_genotypes()[0]`: the genotype of minimal fitness (first
attaining the minimum; `np.argsort`'s order among exact ties is
implementation-defined, and the driver never uses the second entry). -/
def best_genotype : Genotype → List Genotype → Genotype
  | g, [] => g
  | g, h :: t => if h.fitness < g.fitness then best_genotype h t else best_genotype g t

def best_genotype_of (pop : List Genotype) (d : Genotype) : Genotype :=
  match pop with
  | [] => d
  | g :: gs => best_genotype g gs

/-- `remove_genotype`: drop the first occurrence (Python `list.remove`). -/
def remove_genotype : List Genotype → Genotype → List Genotype
  | [], _ => []
  | h :: t, g => if h = g then t else h :: remove_genotype t g

/-! ## operators.py hill climbs and genetic_algorithm.py driver (C9) -/

/-- Write value `v` into cell `(t, n)`. -/
def set_cell (s : List (List ℚ)) (t n : ℕ) (v : ℚ) : List (List ℚ) :=
  map_with_index_from (fun ti row =>
    if ti = t then
      map_with_index_from (fun ni x => if ni = n then v else x) 0 row
    else row) 0 s

/-- The temp-swap of cells `(t, r1)` and `(t, r2)` in
`swap_mutation_operator`. -/
def swap_cells (s : List (List ℚ)) (t r1 r2 : ℕ) : List (List ℚ) :=
  set_cell (set_cell s t r1 (cell s t r2)) t r2 (cell s t r1)

/-- Per-period random draws of `swap_mutation_operator`: the coin deciding
swap vs flip, the two distinct generators of the swap branch, the generator
of the flip branch. -/
structure SwapMutRand where
  coin : ℚ
  pair : ℕ × ℕ
  unit : ℕ
deriving Repr, DecidableEq

instance : Inhabited SwapMutRand := ⟨⟨1, (0, 0), 0⟩⟩

/-- `if new_fitness < best_fitness: best_schedule, best_fitness = ...` —
the acceptance step shared by both hill-climb operators. -/
def accept_if_better (best : List (List ℚ) × ℚ)
    (new_schedule : List (List ℚ)) (f : ℚ) : List (List ℚ) × ℚ :=
  if f < best.2 then (new_schedule, f) else best

/-- The candidate schedule of one `swap_mutation_operator` iteration:
with the coin below `0.5`, swap the bits of two generators at hour `t`,
else flip one generator's bit at hour `t` (numpy `not`). -/
def swap_mutation_candidate (t : ℕ) (r : SwapMutRand)
    (bs : List (List ℚ)) : List (List ℚ) :=
  if r.coin < 1/2 then swap_cells bs t r.pair.1 r.pair.2
  else set_cell bs t r.unit (if cell bs t r.unit = 0 then 1 else 0)

/-- One iteration of the `for t in range(T)` loop of
`swap_mutation_operator`: build the candidate from the current best, accept
it when its fitness strictly improves. -/
def swap_mutation_step (fuel : ℕ) (P : GAParams) (t : ℕ) (r : SwapMutRand)
    (best : List (List ℚ) × ℚ) : Option (List (List ℚ) × ℚ) :=
  (calculate_schedule_fitness fuel P
    (convert_to_integer (swap_mutation_candidate t r best.1) P.init_status)).map
    (accept_if_better best (swap_mutation_candidate t r best.1))

def swap_mutation_go (fuel : ℕ) (P : GAParams) (rs : List SwapMutRand) :
    List ℕ → List (List ℚ) × ℚ → Option (List (List ℚ) × ℚ)
  | [], best => some best
  | t :: ts, best =>
    match swap_mutation_step fuel P t (rs.getD t default) best with
    | none => none
    | some best2 => swap_mutation_go fuel P rs ts best2

/-- `swap_mutation_operator(binary_schedule, **kwargs)`: hill climb over the
periods, starting from the fitness of the (integer re-encoding of the)
input schedule. -/
def swap_mutation_operator (fuel : ℕ) (P : GAParams) (rs : List SwapMutRand)
    (binary_schedule : List (List ℚ)) : Option (List (List ℚ)) :=
  match calculate_schedule_fitness fuel P
      (convert_to_integer binary_schedule P.init_status) with
  | none => none
  | some best_fitness =>
    (swap_mutation_go fuel P rs (List.range binary_schedule.length)
      (binary_schedule, best_fitness)).map Prod.fst

/-- One iteration of the `for t in range(T - W)` loop of
`swap_window_hc_operator`: swap the window `[t, t + W)` of units `u1`, `u2`
on the current best, accept on strict improvement. -/
def swap_window_hc_step (fuel : ℕ) (P : GAParams) (u1 u2 W t : ℕ)
    (best : List (List ℚ) × ℚ) : Option (List (List ℚ) × ℚ) :=
  (calculate_schedule_fitness fuel P
    (convert_to_integer ((swap_window best.1 t (t + W) u1 u2).1)
      P.init_status)).map
    (accept_if_better best ((swap_window best.1 t (t + W) u1 u2).1))

def swap_window_hc_go (fuel : ℕ) (P : GAParams) (u1 u2 W : ℕ) :
    List ℕ → List (List ℚ) × ℚ → Option (List (List ℚ) × ℚ)
  | [], best => some best
  | t :: ts, best =>
    match swap_window_hc_step fuel P u1 u2 W t best with
    | none => none
    | some best2 => swap_window_hc_go fuel P u1 u2 W ts best2

/-- `swap_window_hc_operator(binary_schedule, **kwargs)` with the window
size `W` and units `u1`, `u2` drawn explicitly. -/
def swap_window_hc_operator (fuel : ℕ) (P : GAParams) (W u1 u2 : ℕ)
    (binary_schedule : List (List ℚ)) : Option (List (List ℚ)) :=
  match calculate_schedule_fitness fuel P
      (convert_to_integer binary_schedule P.init_status) with
  | none => none
  | some best_fitness =>
    (swap_window_hc_go fuel P u1 u2 W
      (List.range (binary_schedule.length - W))
      (binary_schedule, best_fitness)).map Prod.fst

/-- Random draws of one `generate_offspring` call, one field per
`np.random` call of the source. -/
structure OffspringRand where
  crossover_point : ℕ
  col_rands : List ℚ
  mut_rands1 : List (List ℚ)
  mut_rands2 : List (List ℚ)
  sw_r1 : ℚ
  sw_r2 : ℚ
  sw_window1 : ℕ × ℕ
  sw_gens1 : ℕ × ℕ
  sw_window2 : ℕ × ℕ
  sw_gens2 : ℕ × ℕ
  wm_r1 : ℚ
  wm_r2 : ℚ
  wm_window1 : ℕ × ℕ
  wm_gen1 : ℕ
  wm_val1 : Bool
  wm_window2 : ℕ × ℕ
  wm_gen2 : ℕ
  wm_val2 : Bool
deriving Repr, DecidableEq

instance : Inhabited OffspringRand :=
  ⟨⟨0, [], [], [], 1, 1, (0, 0), (0, 0), (0, 0), (0, 0), 1, 1, (0, 0), 0,
    false, (0, 0), 0, false⟩⟩

/-- Lines 125-137 of `operators.py`…`generate_offspring`: after crossover
and mutation, apply swap window with probability `swap_window_probability`
and window mutation with probability `window_mutation_probability`. -/
def apply_sw (P : GAParams) (swr : ℚ) (sww swg : ℕ × ℕ)
    (o : List (List ℚ)) : List (List ℚ) :=
  if swr < P.swap_window_probability then
    (swap_window o sww.1 sww.2 swg.1 swg.2).1
  else o

def apply_sw_wm (P : GAParams) (swr : ℚ) (sww swg : ℕ × ℕ) (wmr : ℚ)
    (wmw : ℕ × ℕ) (wmg : ℕ) (wmv : Bool) (o : List (List ℚ)) :
    List (List ℚ) :=
  if wmr < P.window_mutation_probability then
    (window_mutation (apply_sw P swr sww swg o) wmw.1 wmw.2 wmg
      (if wmv then 1 else 0)).1
  else apply_sw P swr sww swg o

/-- The first offspring's binary schedule in `generate_offspring`. -/
def offspring_binary1 (P : GAParams) (r : OffspringRand)
    (b1 b2 : List (List ℚ)) : List (List ℚ) :=
  apply_sw_wm P r.sw_r1 r.sw_window1 r.sw_gens1 r.wm_r1 r.wm_window1
    r.wm_gen1 r.wm_val1
    ((mutate (crossover b1 b2 r.crossover_point r.col_rands
      P.crossover_probability).1 r.mut_rands1 P.mutation_probability).1)

/-- The second offspring's binary schedule in `generate_offspring`. -/
def offspring_binary2 (P : GAParams) (r : OffspringRand)
    (b1 b2 : List (List ℚ)) : List (List ℚ) :=
  apply_sw_wm P r.sw_r2 r.sw_window2 r.sw_gens2 r.wm_r2 r.wm_window2
    r.wm_gen2 r.wm_val2
    ((mutate (crossover b1 b2 r.crossover_point r.col_rands
      P.crossover_probability).2 r.mut_rands2 P.mutation_probability).1)

/-- `generate_offspring(genotype1, genotype2, **kwargs)`: crossover, then
mutation on both offspring, then (with their probabilities) swap window and
window mutation, then re-encode and build the two genotypes. -/
def generate_offspring (fuel : ℕ) (P : GAParams) (r : OffspringRand)
    (genotype1 genotype2 : Genotype) : Option (Genotype × Genotype) :=
  (make_genotype fuel P (convert_to_integer
    (offspring_binary1 P r (convert_to_binary genotype1.schedule)
      (convert_to_binary genotype2.schedule)) P.init_status)).bind
    (fun o1 =>
      (make_genotype fuel P (convert_to_integer
        (offspring_binary2 P r (convert_to_binary genotype1.schedule)
          (convert_to_binary genotype2.schedule)) P.init_status)).map
        (fun o2 => (o1, o2)))

/-- The `while new_population.num_used < new_population.size` loop of the
driver: select a pair of parents (the roulette draw is the supplied index
pair) and append the two offspring.  Terminates because each iteration
grows the population by two. -/
def fill_population (fuel : ℕ) (P : GAParams) (parents : List Genotype)
    (rs : List ((ℕ × ℕ) × OffspringRand)) (pop : List Genotype) :
    Option (List Genotype) :=
  if _h : pop.length < P.pop_size then
    match generate_offspring fuel P (rs.headD default).2
        (parents.getD (rs.headD default).1.1 default)
        (parents.getD (rs.headD default).1.2 default) with
    | none => none
    | some (o1, o2) => fill_population fuel P parents rs.tail (pop ++ [o1, o2])
  else some pop
termination_by P.pop_size - pop.length
decreasing_by simp; omega

/-- Random draws of one generation of the driver. -/
structure GenerationRand where
  sel_pairs : List ((ℕ × ℕ) × OffspringRand)
  swap_mut : List SwapMutRand
  hc_r : ℚ
  hc_W : ℕ
  hc_units : ℕ × ℕ
deriving Repr, DecidableEq

instance : Inhabited GenerationRand := ⟨⟨[], [], 1, 0, (0, 0)⟩⟩

/-- Lines 76-81 of the driver: re-encode the hill-climbed binary schedule,
build the new best genotype and return it appended to the population. -/
def register_best (fuel : ℕ) (P : GAParams) (pop1 : List Genotype)
    (bs2 : List (List ℚ)) : Option (List Genotype × Genotype) :=
  (make_genotype fuel P (convert_to_integer bs2 P.init_status)).map
    (fun new_best => (pop1 ++ [new_best], new_best))

/-- Lines 71-74 of the driver: with probability
`swap_window_hc_probability`, apply the swap-window hill climb before
registering the result. -/
def hc_and_register (fuel : ℕ) (P : GAParams) (r : GenerationRand)
    (pop1 : List Genotype) (bs1 : List (List ℚ)) :
    Option (List Genotype × Genotype) :=
  (if r.hc_r < P.swap_window_hc_probability then
    swap_window_hc_operator fuel P r.hc_W r.hc_units.1 r.hc_units.2 bs1
  else some bs1).bind (register_best fuel P pop1)

/-- Lines 62-69 of the driver: extract the best genotype of the freshly
filled population, remove it, and hill-climb its binary schedule.  (The
best genotype is recomputed at each use; the function is pure, so this
matches the source's single computation.) -/
def run_generation_core (fuel : ℕ) (P : GAParams) (r : GenerationRand)
    (new_pop : List Genotype) : Option (List Genotype × Genotype) :=
  (swap_mutation_operator fuel P r.swap_mut
    (convert_to_binary (best_genotype_of new_pop default).schedule)).bind
    (hc_and_register fuel P r
      (remove_genotype new_pop (best_genotype_of new_pop default)))

/-- One generation of `run_genetic_algorithm` (with the constraint penalty
already updated in `P`): fill the new population behind the carried elite,
take the best genotype out, hill-climb its binary schedule, re-encode, and
append the result; returns the new parent population and the new best
genotype (whose fitness the driver records). -/
def run_generation (fuel : ℕ) (P : GAParams) (r : GenerationRand)
    (parents : List Genotype) (best1 : Genotype) :
    Option (List Genotype × Genotype) :=
  (fill_population fuel P parents r.sel_pairs [best1]).bind
    (run_generation_core fuel P r)

/-- `kwargs.update({'constraint_penalty': ...})`. -/
def set_penalty (P : GAParams) (v : ℚ) : GAParams :=
  { P with constraint_penalty := v }

/-- The `for g in range(number_of_generations)` loop, by countdown on the
generations left; each generation first sets
`constraint_penalty = max_penalty * (g+1) / number_of_generations`. -/
def run_ga_loop (fuel : ℕ) (P : GAParams) (number_of_generations : ℕ) :
    ℕ → ℕ → List GenerationRand → List Genotype → Genotype → List ℚ →
    Option (Genotype × List ℚ × List Genotype)
  | 0, _, _, parents, best1, results => some (best1, results, parents)
  | left + 1, g, rs, parents, best1, results =>
    match run_generation fuel
        (set_penalty P
          (P.max_penalty * ((g : ℚ) + 1) / (number_of_generations : ℚ)))
        (rs.headD default) parents best1 with
    | none => none
    | some (new_pop, new_best) =>
      run_ga_loop fuel P number_of_generations left (g + 1) rs.tail new_pop
        new_best (results ++ [new_best.fitness])

/-- The initial population: one genotype per seed schedule (the driver
indexes `seed_schedules[i]` for `i in range(pop_size)`). -/
def seed_population (fuel : ℕ) (P : GAParams)
    (seed_schedules : List (List (List ℚ))) : Option (List Genotype) :=
  (List.range P.pop_size).mapM (fun i =>
    make_genotype fuel P
      (convert_to_integer (seed_schedules.getD i []) P.init_status))

/-- `run_genetic_algorithm(number_of_generations, seed_schedules,
**kwargs)` returning `(best_genotype1, results, new_population)`. -/
def run_genetic_algorithm (fuel : ℕ) (P : GAParams)
    (number_of_generations : ℕ) (seed_schedules : List (List (List ℚ)))
    (rs : List GenerationRand) :
    Option (Genotype × List ℚ × List Genotype) :=
  match seed_population fuel P seed_schedules with
  | none => none
  | some parents =>
    run_ga_loop fuel P number_of_generations number_of_generations 0 rs
      parents (best_genotype_of parents default) []

/-! ## A concrete GA run (for C9) -/

/-- Parameters of the concrete GA runs: one generator (cost `x^2`, output
range `[10, 20]`), a single period of demand `30` (a shortfall whether the
unit is on or off), `voll = 1000`, the unit online one period initially,
population size `2`, and all operator probabilities `0`. -/
def ga_example_params (cp mp : ℚ) : GAParams :=
  ⟨[⟨1, 0, 0, 10, 20, 1, 1, 100, 500, 3⟩], [30], 1000, [1], cp, 0, 1, mp, 2,
    0, 0, 0, 0, 0⟩

/-- Offspring randomness for the example: crossover point `0`, all uniform
draws `1` (no operator triggers, since every probability is `0`). -/
def ga_example_offspring_rand : OffspringRand :=
  ⟨0, [1], [[1]], [[1]], 1, 1, (0, 0), (0, 0), (0, 0), (0, 0), 1, 1, (0, 0),
    0, false, (0, 0), 0, false⟩

/-- Generation randomness for the example: one selection pair `(0, 1)`, one
swap-mutation draw (coin `1`: the flip branch, unit `0`), no hill climb. -/
def ga_example_gen_rand : GenerationRand :=
  ⟨[((0, 1), ga_example_offspring_rand)], [⟨1, (0, 0), 0⟩], 1, 0, (0, 0)⟩

theorem ga_example_to_integer_on : convert_to_integer [[1]] [1] = [[2]] := by
  norm_num [convert_to_integer, convert_to_integer_go, integer_row]

theorem ga_example_to_integer_off : convert_to_integer [[0]] [1] = [[-1]] := by
  norm_num [convert_to_integer, convert_to_integer_go, integer_row]

theorem ga_example_to_binary : convert_to_binary [[2]] = [[1]] := by
  norm_num [convert_to_binary]

theorem ga_example_fitness_on (cp mp : ℚ) :
    calculate_schedule_fitness 1 (ga_example_params cp mp) [[2]] =
      some (10400 + cp) := by
  norm_num [calculate_schedule_fitness, ga_example_params, economic_dispatch,
    economic_dispatch_period, online_units, List.filter_cons, scatter_dispatch,
    calculate_fuel_costs, calculate_costs_period, cost_unit,
    calculate_start_costs, calculate_start_costs_go,
    calculate_start_costs_period, start_cost_unit, calculate_constraint_costs,
    calculate_constraint_costs_go, calculate_constraint_costs_period,
    count_min_down, count_min_up, action_dot_max]

theorem ga_example_fitness_off (cp mp : ℚ) :
    calculate_schedule_fitness 1 (ga_example_params cp mp) [[-1]] =
      some (30000 + cp) := by
  norm_num [calculate_schedule_fitness, ga_example_params, economic_dispatch,
    economic_dispatch_period, online_units, List.filter_cons, scatter_dispatch,
    calculate_fuel_costs, calculate_costs_period, cost_unit,
    calculate_start_costs, calculate_start_costs_go,
    calculate_start_costs_period, start_cost_unit, calculate_constraint_costs,
    calculate_constraint_costs_go, calculate_constraint_costs_period,
    count_min_down, count_min_up, action_dot_max, abs_of_nonneg]

theorem ga_example_make_genotype (cp mp : ℚ) :
    make_genotype 1 (ga_example_params cp mp) [[2]] =
      some ⟨[[2]], 10400 + cp⟩ := by
  rw [make_genotype, ga_example_fitness_on]
  rfl

theorem ga_example_offspring_bin (cp mp : ℚ) :
    offspring_binary1 (ga_example_params cp mp) ga_example_offspring_rand
        [[1]] [[1]] = [[1]] ∧
    offspring_binary2 (ga_example_params cp mp) ga_example_offspring_rand
        [[1]] [[1]] = [[1]] := by
  have hcross : crossover [[1]] [[1]] 0 [1] 0 = ([[1]], [[1]]) := by
    norm_num [crossover, crossover_offspring1, crossover_offspring2,
      map_with_index_from, cell]
  have hmut1 : (mutate (([[1]], [[1]]) :
      List (List ℚ) × List (List ℚ)).1 [[1]] 0).1 = [[1]] := by
    norm_num [mutate, mutate_result, map_with_index_from]
  have hmut2 : (mutate (([[1]], [[1]]) :
      List (List ℚ) × List (List ℚ)).2 [[1]] 0).1 = [[1]] := by
    norm_num [mutate, mutate_result, map_with_index_from]
  have hsw : apply_sw (ga_example_params cp mp) 1 (0, 0) (0, 0) [[1]] =
      [[1]] := by
    rw [apply_sw]
    have hp : (ga_example_params cp mp).swap_window_probability = 0 := rfl
    rw [hp, if_neg (by norm_num)]
  have hswwm : apply_sw_wm (ga_example_params cp mp) 1 (0, 0) (0, 0) 1 (0, 0)
      0 false [[1]] = [[1]] := by
    rw [apply_sw_wm]
    have hp : (ga_example_params cp mp).window_mutation_probability = 0 := rfl
    rw [hp, if_neg (by norm_num), hsw]
  have hcpt : ga_example_offspring_rand.crossover_point = 0 := rfl
  have hcol : ga_example_offspring_rand.col_rands = [1] := rfl
  have hmr1 : ga_example_offspring_rand.mut_rands1 = [[1]] := rfl
  have hmr2 : ga_example_offspring_rand.mut_rands2 = [[1]] := rfl
  have hcp : (ga_example_params cp mp).crossover_probability = 0 := rfl
  have hmu : (ga_example_params cp mp).mutation_probability = 0 := rfl
  constructor
  · rw [offspring_binary1, hcpt, hcol, hmr1, hcp, hmu, hcross, hmut1]
    exact hswwm
  · rw [offspring_binary2, hcpt, hcol, hmr2, hcp, hmu, hcross, hmut2]
    exact hswwm

theorem ga_example_offspring (cp mp : ℚ) (g1 g2 : Genotype)
    (h1 : g1.schedule = [[2]]) (h2 : g2.schedule = [[2]]) :
    generate_offspring 1 (ga_example_params cp mp) ga_example_offspring_rand
      g1 g2 = some (⟨[[2]], 10400 + cp⟩, ⟨[[2]], 10400 + cp⟩) := by
  rw [generate_offspring, h1, h2, ga_example_to_binary,
    (ga_example_offspring_bin cp mp).1, (ga_example_offspring_bin cp mp).2]
  have hpi : (ga_example_params cp mp).init_status = [1] := rfl
  rw [hpi, ga_example_to_integer_on, ga_example_make_genotype]
  rfl

theorem ga_example_swap_candidate :
    swap_mutation_candidate 0 ⟨1, (0, 0), 0⟩ [[1]] = [[0]] := by
  rw [swap_mutation_candidate]
  have hc : (⟨1, (0, 0), 0⟩ : SwapMutRand).coin = 1 := rfl
  have hu : (⟨1, (0, 0), 0⟩ : SwapMutRand).unit = 0 := rfl
  rw [hc, hu, if_neg (by norm_num)]
  norm_num [set_cell, cell, map_with_index_from]

theorem ga_example_swap_step (cp mp : ℚ) :
    swap_mutation_step 1 (ga_example_params cp mp) 0
      ⟨1, (0, 0), 0⟩ ([[1]], 10400 + cp) = some ([[1]], 10400 + cp) := by
  have hfst : (([[1]], 10400 + cp) : List (List ℚ) × ℚ).1 = [[1]] := rfl
  rw [swap_mutation_step, hfst, ga_example_swap_candidate]
  have hpi : (ga_example_params cp mp).init_status = [1] := rfl
  rw [hpi, ga_example_to_integer_off, ga_example_fitness_off,
    Option.map_some']
  rw [accept_if_better]
  have hsnd : (([[1]], 10400 + cp) : List (List ℚ) × ℚ).2 = 10400 + cp := rfl
  rw [hsnd, if_neg (by intro h; linarith)]

theorem ga_example_swap_mutation (cp mp : ℚ) :
    swap_mutation_operator 1 (ga_example_params cp mp)
      [⟨1, (0, 0), 0⟩] [[1]] = some [[1]] := by
  rw [swap_mutation_operator]
  have hpi : (ga_example_params cp mp).init_status = [1] := rfl
  rw [hpi, ga_example_to_integer_on, ga_example_fitness_on]
  have hgo : swap_mutation_go 1 (ga_example_params cp mp) [⟨1, (0, 0), 0⟩]
      (List.range 1) ([[1]], 10400 + cp) = some ([[1]], 10400 + cp) := by
    have hrange : List.range 1 = [0] := rfl
    rw [hrange, swap_mutation_go, List.getD_cons_zero,
      ga_example_swap_step cp mp]
    rfl
  show Option.map Prod.fst
    (swap_mutation_go 1 (ga_example_params cp mp) [⟨1, (0, 0), 0⟩]
      (List.range 1) ([[1]], 10400 + cp)) = some [[1]]
  rw [hgo]
  rfl

theorem ga_example_fill (cp mp : ℚ) (parents : List Genotype) (best1 : Genotype)
    (hp0 : (parents.getD 0 default).schedule = [[2]])
    (hp1 : (parents.getD 1 default).schedule = [[2]]) :
    fill_population 1 (ga_example_params cp mp) parents
      [((0, 1), ga_example_offspring_rand)] [best1] =
      some [best1, ⟨[[2]], 10400 + cp⟩, ⟨[[2]], 10400 + cp⟩] := by
  rw [fill_population.eq_def]
  rw [dif_pos (by norm_num [ga_example_params] :
    ([best1] : List Genotype).length < (ga_example_params cp mp).pop_size)]
  simp only [List.headD_cons]
  rw [ga_example_offspring cp mp _ _ hp0 hp1]
  have h2 : fill_population 1 (ga_example_params cp mp) parents
      ([((0, 1), ga_example_offspring_rand)].tail)
      ([best1] ++ [⟨[[2]], 10400 + cp⟩, ⟨[[2]], 10400 + cp⟩]) =
      some [best1, ⟨[[2]], 10400 + cp⟩, ⟨[[2]], 10400 + cp⟩] := by
    rw [fill_population.eq_def]
    rw [dif_neg (by norm_num [ga_example_params])]
    rfl
  exact h2

theorem ga_example_generation (cp mp fb : ℚ) (parents : List Genotype)
    (best1 : Genotype)
    (hp0 : (parents.getD 0 default).schedule = [[2]])
    (hp1 : (parents.getD 1 default).schedule = [[2]])
    (hb : best1 = ⟨[[2]], fb⟩)
    (hle : ¬ 10400 + cp < fb) :
    run_generation 1 (ga_example_params cp mp) ga_example_gen_rand parents
      best1 =
      some ([⟨[[2]], 10400 + cp⟩, ⟨[[2]], 10400 + cp⟩, ⟨[[2]], 10400 + cp⟩],
        ⟨[[2]], 10400 + cp⟩) := by
  subst hb
  rw [run_generation]
  have hsel : ga_example_gen_rand.sel_pairs =
      [((0, 1), ga_example_offspring_rand)] := rfl
  rw [hsel, ga_example_fill cp mp parents _ hp0 hp1, Option.some_bind]
  rw [run_generation_core]
  have helite : best_genotype_of
      [⟨[[2]], fb⟩, ⟨[[2]], 10400 + cp⟩, ⟨[[2]], 10400 + cp⟩] default =
      ⟨[[2]], fb⟩ := by
    simp [best_genotype_of, best_genotype, hle]
  rw [helite]
  have hrem : remove_genotype
      [(⟨[[2]], fb⟩ : Genotype), ⟨[[2]], 10400 + cp⟩, ⟨[[2]], 10400 + cp⟩]
      ⟨[[2]], fb⟩ = [⟨[[2]], 10400 + cp⟩, ⟨[[2]], 10400 + cp⟩] := by
    simp [remove_genotype]
  rw [hrem]
  have hsm : ga_example_gen_rand.swap_mut = [⟨1, (0, 0), 0⟩] := rfl
  have hbin : convert_to_binary (Genotype.mk [[2]] fb).schedule = [[1]] :=
    ga_example_to_binary
  rw [hsm, hbin, ga_example_swap_mutation cp mp, Option.some_bind]
  rw [hc_and_register]
  have hhc : ga_example_gen_rand.hc_r = 1 := rfl
  have hpr : (ga_example_params cp mp).swap_window_hc_probability = 0 := rfl
  rw [hhc, hpr, if_neg (by norm_num), Option.some_bind]
  rw [register_best]
  have hpi : (ga_example_params cp mp).init_status = [1] := rfl
  rw [hpi, ga_example_to_integer_on, ga_example_make_genotype,
    Option.map_some']
  rfl

theorem ga_example_seed (mp : ℚ) :
    seed_population 1 (ga_example_params 0 mp) [[[1]], [[1]]] =
      some [⟨[[2]], 10400⟩, ⟨[[2]], 10400⟩] := by
  rw [seed_population]
  have hps : (ga_example_params 0 mp).pop_size = 2 := rfl
  have hrange : List.range 2 = [0, 1] := rfl
  rw [hps, hrange, List.mapM_cons, List.mapM_cons, List.mapM_nil]
  have hg0 : ([[[1]], [[1]]] : List (List (List ℚ))).getD 0 [] = [[1]] := rfl
  have hg1 : ([[[1]], [[1]]] : List (List (List ℚ))).getD 1 [] = [[1]] := rfl
  have hpi : (ga_example_params 0 mp).init_status = [1] := rfl
  rw [hg0, hg1, hpi, ga_example_to_integer_on, ga_example_make_genotype]
  have hz : (10400 : ℚ) + 0 = 10400 := by norm_num
  rw [hz]
  rfl

theorem ga_example_run (mp : ℚ) (hmp : 0 ≤ mp) :
    run_genetic_algorithm 1 (ga_example_params 0 mp) 2 [[[1]], [[1]]]
      [ga_example_gen_rand, ga_example_gen_rand] =
      some (⟨[[2]], 10400 + mp⟩, [10400 + mp/2, 10400 + mp],
        [⟨[[2]], 10400 + mp⟩, ⟨[[2]], 10400 + mp⟩, ⟨[[2]], 10400 + mp⟩]) := by
  rw [run_genetic_algorithm, ga_example_seed]
  show run_ga_loop 1 (ga_example_params 0 mp) 2 (1 + 1) 0
      [ga_example_gen_rand, ga_example_gen_rand]
      [⟨[[2]], 10400⟩, ⟨[[2]], 10400⟩]
      (best_genotype_of [⟨[[2]], 10400⟩, ⟨[[2]], 10400⟩] default) [] = _
  have hbest0 : best_genotype_of
      [(⟨[[2]], 10400⟩ : Genotype), ⟨[[2]], 10400⟩] default =
      ⟨[[2]], 10400⟩ := by
    simp [best_genotype_of, best_genotype]
  rw [hbest0, run_ga_loop]
  have hmaxp : (ga_example_params 0 mp).max_penalty = mp := rfl
  have hpen1 : (ga_example_params 0 mp).max_penalty * (((0 : ℕ) : ℚ) + 1) /
      ((2 : ℕ) : ℚ) = mp / 2 := by
    rw [hmaxp]
    push_cast
    ring
  have hset1 : set_penalty (ga_example_params 0 mp) (mp / 2) =
      ga_example_params (mp / 2) mp := by
    simp [set_penalty, ga_example_params]
  rw [List.headD_cons, hpen1, hset1,
    ga_example_generation (mp/2) mp 10400
      [⟨[[2]], 10400⟩, ⟨[[2]], 10400⟩] ⟨[[2]], 10400⟩ rfl rfl rfl
      (by intro h; linarith)]
  show run_ga_loop 1 (ga_example_params 0 mp) 2 (0 + 1) 1 [ga_example_gen_rand]
      [⟨[[2]], 10400 + mp/2⟩, ⟨[[2]], 10400 + mp/2⟩, ⟨[[2]], 10400 + mp/2⟩]
      ⟨[[2]], 10400 + mp/2⟩ [10400 + mp/2] = _
  rw [run_ga_loop]
  have hpen2 : (ga_example_params 0 mp).max_penalty * (((1 : ℕ) : ℚ) + 1) /
      ((2 : ℕ) : ℚ) = mp := by
    rw [hmaxp]
    push_cast
    ring
  have hset2 : set_penalty (ga_example_params 0 mp) mp =
      ga_example_params mp mp := by
    simp [set_penalty, ga_example_params]
  rw [List.headD_cons, hpen2, hset2,
    ga_example_generation mp mp (10400 + mp/2)
      [⟨[[2]], 10400 + mp/2⟩, ⟨[[2]], 10400 + mp/2⟩, ⟨[[2]], 10400 + mp/2⟩]
      ⟨[[2]], 10400 + mp/2⟩ rfl rfl rfl
      (by intro h; linarith)]
  show run_ga_loop 1 (ga_example_params 0 mp) 2 0 2 []
      [⟨[[2]], 10400 + mp⟩, ⟨[[2]], 10400 + mp⟩, ⟨[[2]], 10400 + mp⟩]
      ⟨[[2]], 10400 + mp⟩ [10400 + mp/2, 10400 + mp] = _
  rw [run_ga_loop]

/-- C9 counterexample: a complete two-generation run (one generator, demand
`30`, `voll = 1000`, population `2`, all operator probabilities `0`,
`max_penalty = 2`, seeds all-on) in which the recorded best-fitness sequence
is `[10401, 10402]` — strictly increasing, because the constraint penalty
ramps from `1` to `2` between the generations while the (unchanged) best
schedule has one reserve violation per period. -/
theorem run_genetic_algorithm_fitness_can_increase :
    run_genetic_algorithm 1 (ga_example_params 0 2) 2 [[[1]], [[1]]]
      [ga_example_gen_rand, ga_example_gen_rand] =
      some (⟨[[2]], 10402⟩, [10401, 10402],
        [⟨[[2]], 10402⟩, ⟨[[2]], 10402⟩, ⟨[[2]], 10402⟩]) ∧
    ¬ ((10402 : ℚ) ≤ 10401) := by
  constructor
  · have h := ga_example_run 2 (by norm_num)
    norm_num at h
    exact h
  · norm_num

/-! ## The general elitism argument (C9 amended) -/

/-- Every cell of the schedule is `0` or `1`. -/
def BinarySched (s : List (List ℚ)) : Prop := ∀ r ∈ s, ∀ x ∈ r, x = 0 ∨ x = 1

/-- Every row of the schedule has width `N`. -/
def WidthSched (N : ℕ) (s : List (List ℚ)) : Prop := ∀ r ∈ s, r.length = N

/-- The genotype's schedule is the integer re-encoding of some binary
schedule of the fleet's width: the shape every schedule entering a
`Genotype` has in the driver. -/
def SchedOk (init : List ℚ) (g : Genotype) : Prop :=
  ∃ bs, BinarySched bs ∧ WidthSched init.length bs ∧
    g.schedule = convert_to_integer bs init

/-- The stored fitness is the recomputed fitness of the stored schedule. -/
def FitOk (fuel : ℕ) (P : GAParams) (g : Genotype) : Prop :=
  calculate_schedule_fitness fuel P g.schedule = some g.fitness

/-- Consecutive entries never increase. -/
def nonincreasing (l : List ℚ) : Prop :=
  ∀ i, i + 1 < l.length → l.getD (i + 1) 0 ≤ l.getD i 0

theorem map_with_index_from_length {α β : Type} (f : ℕ → α → β) :
    ∀ (k : ℕ) (l : List α), (map_with_index_from f k l).length = l.length
  | _, [] => rfl
  | k, _ :: xs => by
    simpa [map_with_index_from] using map_with_index_from_length f (k + 1) xs

theorem map_with_index_from_mem {α β : Type} (f : ℕ → α → β) :
    ∀ (k : ℕ) (l : List α) (y : β), y ∈ map_with_index_from f k l →
      ∃ i x, x ∈ l ∧ y = f i x
  | _, [], y, h => absurd h (List.not_mem_nil y)
  | k, x :: xs, y, h => by
    rcases List.mem_cons.mp h with h1 | h2
    · exact ⟨k, x, by simp, h1⟩
    · obtain ⟨i, x', hx', hy⟩ := map_with_index_from_mem f (k + 1) xs y h2
      exact ⟨i, x', by simp [hx'], hy⟩

theorem getD_zero_one (r : List ℚ) (h : ∀ x ∈ r, x = 0 ∨ x = 1) (n : ℕ) :
    r.getD n 0 = 0 ∨ r.getD n 0 = 1 := by
  by_cases hn : n < r.length
  · exact h _ (by rw [List.getD_eq_getElem _ _ hn]; exact List.getElem_mem hn)
  · left
    exact List.getD_eq_default _ _ (le_of_not_lt hn)

theorem getD_row_binary (s : List (List ℚ)) (h : BinarySched s) (t : ℕ) :
    ∀ x ∈ s.getD t [], x = 0 ∨ x = 1 := by
  by_cases ht : t < s.length
  · exact h _ (by rw [List.getD_eq_getElem _ _ ht]; exact List.getElem_mem ht)
  · rw [List.getD_eq_default _ _ (le_of_not_lt ht)]
    intro x hx
    exact absurd hx (List.not_mem_nil x)

theorem cell_zero_one (s : List (List ℚ)) (h : BinarySched s) (t n : ℕ) :
    cell s t n = 0 ∨ cell s t n = 1 :=
  getD_zero_one _ (getD_row_binary s h t) n

theorem binary_sched_of_map (f : ℕ → List ℚ → List ℚ) (s : List (List ℚ))
    (h : ∀ i r, r ∈ s → ∀ x ∈ f i r, x = 0 ∨ x = 1) :
    BinarySched (map_with_index_from f 0 s) := by
  intro r hr
  obtain ⟨i, r0, hr0, rfl⟩ := map_with_index_from_mem f 0 s r hr
  exact h i r0 hr0

theorem width_sched_of_map (N : ℕ) (f : ℕ → List ℚ → List ℚ)
    (s : List (List ℚ)) (h : ∀ i r, r ∈ s → (f i r).length = N) :
    WidthSched N (map_with_index_from f 0 s) := by
  intro r hr
  obtain ⟨i, r0, hr0, rfl⟩ := map_with_index_from_mem f 0 s r hr
  exact h i r0 hr0

theorem crossover_offspring1_binary (b1 b2 : List (List ℚ)) (c : ℕ)
    (rands : List ℚ) (p : ℚ) (h1 : BinarySched b1) (h2 : BinarySched b2) :
    BinarySched (crossover_offspring1 b1 b2 c rands p) := by
  apply binary_sched_of_map
  intro t row hrow x hx
  obtain ⟨n, x0, hx0, rfl⟩ := map_with_index_from_mem _ 0 row x hx
  by_cases hc : rands.getD n 1 < p ∧ t < c
  · rw [if_pos hc]
    exact cell_zero_one b2 h2 t n
  · rw [if_neg hc]
    exact h1 row hrow x0 hx0

theorem crossover_offspring2_binary (b1 b2 : List (List ℚ)) (c : ℕ)
    (rands : List ℚ) (p : ℚ) (h1 : BinarySched b1) (h2 : BinarySched b2) :
    BinarySched (crossover_offspring2 b1 b2 c rands p) := by
  apply binary_sched_of_map
  intro t row hrow x hx
  obtain ⟨n, x0, hx0, rfl⟩ := map_with_index_from_mem _ 0 row x hx
  by_cases hc : rands.getD n 1 < p ∧ c ≤ t
  · rw [if_pos hc]
    exact cell_zero_one b1 h1 t n
  · rw [if_neg hc]
    exact h2 row hrow x0 hx0

theorem crossover_offspring1_width (N : ℕ) (b1 b2 : List (List ℚ)) (c : ℕ)
    (rands : List ℚ) (p : ℚ) (h1 : WidthSched N b1) :
    WidthSched N (crossover_offspring1 b1 b2 c rands p) := by
  apply width_sched_of_map
  intro i r hr
  rw [map_with_index_from_length]
  exact h1 r hr

theorem crossover_offspring2_width (N : ℕ) (b1 b2 : List (List ℚ)) (c : ℕ)
    (rands : List ℚ) (p : ℚ) (h2 : WidthSched N b2) :
    WidthSched N (crossover_offspring2 b1 b2 c rands p) := by
  apply width_sched_of_map
  intro i r hr
  rw [map_with_index_from_length]
  exact h2 r hr

theorem mutate_result_binary (bs rm : List (List ℚ)) (p : ℚ)
    (h : BinarySched bs) : BinarySched (mutate_result bs rm p) := by
  apply binary_sched_of_map
  intro t row hrow x hx
  obtain ⟨n, x0, hx0, rfl⟩ := map_with_index_from_mem _ 0 row x hx
  by_cases hc : (rm.getD t []).getD n 0 < p
  · rw [if_pos hc]
    by_cases hz : x0 = 0
    · rw [if_pos hz]
      right
      rfl
    · rw [if_neg hz]
      left
      rfl
  · rw [if_neg hc]
    exact h row hrow x0 hx0

theorem mutate_result_width (N : ℕ) (bs rm : List (List ℚ)) (p : ℚ)
    (h : WidthSched N bs) : WidthSched N (mutate_result bs rm p) := by
  apply width_sched_of_map
  intro i r hr
  rw [map_with_index_from_length]
  exact h r hr

theorem swap_window_result_binary (bs : List (List ℚ)) (w1 w2 g1 g2 : ℕ)
    (h : BinarySched bs) : BinarySched (swap_window_result bs w1 w2 g1 g2) := by
  apply binary_sched_of_map
  intro t row hrow x hx
  obtain ⟨n, x0, hx0, rfl⟩ := map_with_index_from_mem _ 0 row x hx
  by_cases hw : w1 ≤ t ∧ t < w2
  · rw [if_pos hw]
    by_cases hg1 : n = g1
    · rw [if_pos hg1]
      exact cell_zero_one bs h t g2
    · rw [if_neg hg1]
      by_cases hg2 : n = g2
      · rw [if_pos hg2]
        exact cell_zero_one bs h t g1
      · rw [if_neg hg2]
        exact h row hrow x0 hx0
  · rw [if_neg hw]
    exact h row hrow x0 hx0

theorem swap_window_result_width (N : ℕ) (bs : List (List ℚ))
    (w1 w2 g1 g2 : ℕ) (h : WidthSched N bs) :
    WidthSched N (swap_window_result bs w1 w2 g1 g2) := by
  apply width_sched_of_map
  intro i r hr
  rw [map_with_index_from_length]
  exact h r hr

theorem window_mutation_result_binary (bs : List (List ℚ)) (w1 w2 g : ℕ)
    (z : ℚ) (hz : z = 0 ∨ z = 1) (h : BinarySched bs) :
    BinarySched (window_mutation_result bs w1 w2 g z) := by
  apply binary_sched_of_map
  intro t row hrow x hx
  obtain ⟨n, x0, hx0, rfl⟩ := map_with_index_from_mem _ 0 row x hx
  by_cases hc : w1 ≤ t ∧ t < w2 ∧ n = g
  · rw [if_pos hc]
    exact hz
  · rw [if_neg hc]
    exact h row hrow x0 hx0

theorem window_mutation_result_width (N : ℕ) (bs : List (List ℚ))
    (w1 w2 g : ℕ) (z : ℚ) (h : WidthSched N bs) :
    WidthSched N (window_mutation_result bs w1 w2 g z) := by
  apply width_sched_of_map
  intro i r hr
  rw [map_with_index_from_length]
  exact h r hr

theorem set_cell_binary (s : List (List ℚ)) (t n : ℕ) (v : ℚ)
    (hv : v = 0 ∨ v = 1) (h : BinarySched s) :
    BinarySched (set_cell s t n v) := by
  apply binary_sched_of_map
  intro ti row hrow x hx
  by_cases ht : ti = t
  · simp only [if_pos ht] at hx
    obtain ⟨ni, x0, hx0, rfl⟩ := map_with_index_from_mem _ 0 row x hx
    by_cases hn : ni = n
    · rw [if_pos hn]
      exact hv
    · rw [if_neg hn]
      exact h row hrow x0 hx0
  · simp only [if_neg ht] at hx
    exact h row hrow x hx

theorem set_cell_width (N : ℕ) (s : List (List ℚ)) (t n : ℕ) (v : ℚ)
    (h : WidthSched N s) : WidthSched N (set_cell s t n v) := by
  apply width_sched_of_map
  intro i r hr
  by_cases ht : i = t
  · rw [if_pos ht, map_with_index_from_length]
    exact h r hr
  · rw [if_neg ht]
    exact h r hr

theorem swap_cells_binary (s : List (List ℚ)) (t r1 r2 : ℕ)
    (h : BinarySched s) : BinarySched (swap_cells s t r1 r2) :=
  set_cell_binary _ _ _ _ (cell_zero_one s h t r1)
    (set_cell_binary _ _ _ _ (cell_zero_one s h t r2) h)

theorem swap_cells_width (N : ℕ) (s : List (List ℚ)) (t r1 r2 : ℕ)
    (h : WidthSched N s) : WidthSched N (swap_cells s t r1 r2) :=
  set_cell_width _ _ _ _ _ (set_cell_width _ _ _ _ _ h)

theorem swap_mutation_candidate_binary (t : ℕ) (r : SwapMutRand)
    (bs : List (List ℚ)) (h : BinarySched bs) :
    BinarySched (swap_mutation_candidate t r bs) := by
  rw [swap_mutation_candidate]
  by_cases hc : r.coin < 1/2
  · rw [if_pos hc]
    exact swap_cells_binary bs t r.pair.1 r.pair.2 h
  · rw [if_neg hc]
    apply set_cell_binary
    · by_cases hz : cell bs t r.unit = 0 <;> simp [hz]
    · exact h

theorem swap_mutation_candidate_width (N : ℕ) (t : ℕ) (r : SwapMutRand)
    (bs : List (List ℚ)) (h : WidthSched N bs) :
    WidthSched N (swap_mutation_candidate t r bs) := by
  rw [swap_mutation_candidate]
  by_cases hc : r.coin < 1/2
  · rw [if_pos hc]
    exact swap_cells_width N bs t r.pair.1 r.pair.2 h
  · rw [if_neg hc]
    exact set_cell_width _ _ _ _ _ h

theorem convert_to_binary_binary (s : List (List ℚ)) :
    BinarySched (convert_to_binary s) := by
  intro r hr x hx
  obtain ⟨r0, -, rfl⟩ := List.mem_map.mp hr
  obtain ⟨x0, -, rfl⟩ := List.mem_map.mp hx
  by_cases hp : x0 > 0 <;> simp [hp]

theorem convert_to_binary_width (N : ℕ) (s : List (List ℚ))
    (h : WidthSched N s) : WidthSched N (convert_to_binary s) := by
  intro r hr
  obtain ⟨r0, hr0, rfl⟩ := List.mem_map.mp hr
  simpa using h r0 hr0

theorem apply_sw_binary (P : GAParams) (swr : ℚ) (sww swg : ℕ × ℕ)
    (o : List (List ℚ)) (h : BinarySched o) :
    BinarySched (apply_sw P swr sww swg o) := by
  rw [apply_sw]
  split
  · exact swap_window_result_binary _ _ _ _ _ h
  · exact h

theorem apply_sw_width (N : ℕ) (P : GAParams) (swr : ℚ) (sww swg : ℕ × ℕ)
    (o : List (List ℚ)) (h : WidthSched N o) :
    WidthSched N (apply_sw P swr sww swg o) := by
  rw [apply_sw]
  split
  · exact swap_window_result_width _ _ _ _ _ _ h
  · exact h

theorem apply_sw_wm_binary (P : GAParams) (swr : ℚ) (sww swg : ℕ × ℕ)
    (wmr : ℚ) (wmw : ℕ × ℕ) (wmg : ℕ) (wmv : Bool) (o : List (List ℚ))
    (h : BinarySched o) :
    BinarySched (apply_sw_wm P swr sww swg wmr wmw wmg wmv o) := by
  rw [apply_sw_wm]
  split
  · apply window_mutation_result_binary
    · by_cases hv : wmv <;> simp [hv]
    · exact apply_sw_binary P swr sww swg o h
  · exact apply_sw_binary P swr sww swg o h

theorem apply_sw_wm_width (N : ℕ) (P : GAParams) (swr : ℚ) (sww swg : ℕ × ℕ)
    (wmr : ℚ) (wmw : ℕ × ℕ) (wmg : ℕ) (wmv : Bool) (o : List (List ℚ))
    (h : WidthSched N o) :
    WidthSched N (apply_sw_wm P swr sww swg wmr wmw wmg wmv o) := by
  rw [apply_sw_wm]
  split
  · exact window_mutation_result_width _ _ _ _ _ _
      (apply_sw_width N P swr sww swg o h)
  · exact apply_sw_width N P swr sww swg o h

theorem offspring_binary1_binary (P : GAParams) (r : OffspringRand)
    (b1 b2 : List (List ℚ)) (h1 : BinarySched b1) (h2 : BinarySched b2) :
    BinarySched (offspring_binary1 P r b1 b2) := by
  rw [offspring_binary1]
  exact apply_sw_wm_binary _ _ _ _ _ _ _ _ _
    (mutate_result_binary _ _ _ (crossover_offspring1_binary _ _ _ _ _ h1 h2))

theorem offspring_binary2_binary (P : GAParams) (r : OffspringRand)
    (b1 b2 : List (List ℚ)) (h1 : BinarySched b1) (h2 : BinarySched b2) :
    BinarySched (offspring_binary2 P r b1 b2) := by
  rw [offspring_binary2]
  exact apply_sw_wm_binary _ _ _ _ _ _ _ _ _
    (mutate_result_binary _ _ _ (crossover_offspring2_binary _ _ _ _ _ h1 h2))

theorem offspring_binary1_width (N : ℕ) (P : GAParams) (r : OffspringRand)
    (b1 b2 : List (List ℚ)) (h1 : WidthSched N b1) :
    WidthSched N (offspring_binary1 P r b1 b2) := by
  rw [offspring_binary1]
  exact apply_sw_wm_width _ _ _ _ _ _ _ _ _ _
    (mutate_result_width _ _ _ _ (crossover_offspring1_width _ _ _ _ _ _ h1))

theorem offspring_binary2_width (N : ℕ) (P : GAParams) (r : OffspringRand)
    (b1 b2 : List (List ℚ)) (h2 : WidthSched N b2) :
    WidthSched N (offspring_binary2 P r b1 b2) := by
  rw [offspring_binary2]
  exact apply_sw_wm_width _ _ _ _ _ _ _ _ _ _
    (mutate_result_width _ _ _ _ (crossover_offspring2_width _ _ _ _ _ _ h2))

theorem integer_row_length :
    ∀ (b1s i0s b0s : List ℚ), b1s.length ≤ i0s.length →
      b1s.length ≤ b0s.length → (integer_row b1s i0s b0s).length = b1s.length
  | [], i0s, b0s, _, _ => by cases i0s <;> cases b0s <;> rfl
  | b1 :: b1s, i0s, b0s, h1, h2 => by
    cases i0s with
    | nil => simp at h1
    | cons i0 i0s =>
      cases b0s with
      | nil => simp at h2
      | cons b0 b0s =>
        simp only [integer_row, List.length_cons]
        rw [integer_row_length b1s i0s b0s (by simpa using h1)
          (by simpa using h2)]

theorem convert_to_integer_go_width (N : ℕ) :
    ∀ (rows : List (List ℚ)) (prev_int prev_bin : List ℚ),
      (∀ r ∈ rows, r.length = N) → prev_int.length = N →
      prev_bin.length = N →
      WidthSched N (convert_to_integer_go rows prev_int prev_bin)
  | [], _, _, _, _, _ => by
    intro r hr
    exact absurd hr (List.not_mem_nil r)
  | row :: rows, prev_int, prev_bin, hrows, hpi, hpb => by
    have hrow : row.length = N := hrows row (by simp)
    have hrl : (integer_row row prev_int prev_bin).length = row.length :=
      integer_row_length row prev_int prev_bin (le_of_eq (hrow.trans hpi.symm))
        (le_of_eq (hrow.trans hpb.symm))
    intro r hr
    rcases List.mem_cons.mp hr with rfl | hr2
    · rw [hrl, hrow]
    · exact convert_to_integer_go_width N rows _ row
        (fun r' hr' => hrows r' (by simp [hr'])) (hrl.trans hrow) hrow r hr2

theorem convert_to_integer_width (N : ℕ) (bs : List (List ℚ))
    (init : List ℚ) (hw : WidthSched N bs) (hi : init.length = N) :
    WidthSched N (convert_to_integer bs init) :=
  convert_to_integer_go_width N bs init _ hw hi (by simpa using hi)

theorem row_binarize_of_sign :
    ∀ {bs is : List ℚ},
      List.Forall₂ (fun b i => (b > 0 → i > 0) ∧ (b ≤ 0 → i < 0)) bs is →
      (∀ x ∈ bs, x = 0 ∨ x = 1) →
      is.map (fun x => if x > 0 then (1 : ℚ) else 0) = bs := by
  intro bs is h
  induction h with
  | nil => intro _; rfl
  | @cons b i bs' is' hQ _ ih =>
    intro hb
    simp only [List.map_cons]
    rw [ih (fun x hx => hb x (List.mem_cons_of_mem _ hx))]
    congr 1
    rcases hb b (List.mem_cons_self b bs') with rfl | rfl
    · exact if_neg (not_lt.mpr (le_of_lt (hQ.2 le_rfl)))
    · exact if_pos (hQ.1 one_pos)

theorem sched_binarize_of_sign :
    ∀ {bs is : List (List ℚ)},
      List.Forall₂
        (List.Forall₂ (fun b i => (b > 0 → i > 0) ∧ (b ≤ 0 → i < 0))) bs is →
      BinarySched bs → convert_to_binary is = bs := by
  intro bs is h
  induction h with
  | nil => intro _; rfl
  | @cons row irow bs' is' hrow _ ih =>
    intro hb
    simp only [convert_to_binary, List.map_cons]
    have htail := ih (fun r hr => hb r (List.mem_cons_of_mem _ hr))
    simp only [convert_to_binary] at htail
    rw [htail, row_binarize_of_sign hrow (hb row (List.mem_cons_self row bs'))]

/-- Converting a binary schedule to the integer encoding and back is the
identity: `toBinary (toInteger bs init) = bs`. -/
theorem toBinary_toInteger_id (bs : List (List ℚ)) (init : List ℚ)
    (hb : BinarySched bs) (hw : WidthSched init.length bs) :
    convert_to_binary (convert_to_integer bs init) = bs := by
  have hF := convert_to_integer_go_sign bs init
    (init.map (fun x => if x > 0 then (1 : ℚ) else 0))
    hb (fun r hr => by simpa using hw r hr)
    (fun x hx => by
      obtain ⟨y, -, rfl⟩ := List.mem_map.mp hx
      by_cases hy : y > 0 <;> simp [hy])
    (binarize_prev_ok init)
  exact sched_binarize_of_sign hF hb

theorem make_genotype_some (fuel : ℕ) (P : GAParams) (s : List (List ℚ))
    (g : Genotype) (h : make_genotype fuel P s = some g) :
    g.schedule = s ∧ calculate_schedule_fitness fuel P s = some g.fitness := by
  rw [make_genotype, Option.map_eq_some'] at h
  obtain ⟨f, hf, hg⟩ := h
  subst hg
  exact ⟨rfl, hf⟩

theorem sched_ok_width {init : List ℚ} {g : Genotype} (h : SchedOk init g) :
    WidthSched init.length g.schedule := by
  obtain ⟨bs, hb, hw, hs⟩ := h
  rw [hs]
  exact convert_to_integer_width _ bs init hw rfl

theorem swap_mutation_step_spec (fuel : ℕ) (P : GAParams) (t : ℕ)
    (r : SwapMutRand) (best out : List (List ℚ) × ℚ)
    (hbase : calculate_schedule_fitness fuel P
      (convert_to_integer best.1 P.init_status) = some best.2)
    (hb : BinarySched best.1) (hw : WidthSched P.init_status.length best.1)
    (hstep : swap_mutation_step fuel P t r best = some out) :
    calculate_schedule_fitness fuel P
      (convert_to_integer out.1 P.init_status) = some out.2 ∧
    out.2 ≤ best.2 ∧ BinarySched out.1 ∧
    WidthSched P.init_status.length out.1 := by
  rw [swap_mutation_step, Option.map_eq_some'] at hstep
  obtain ⟨f, hf, hout⟩ := hstep
  rw [accept_if_better] at hout
  by_cases hlt : f < best.2
  · rw [if_pos hlt] at hout
    subst hout
    exact ⟨hf, le_of_lt hlt, swap_mutation_candidate_binary t r best.1 hb,
      swap_mutation_candidate_width _ t r best.1 hw⟩
  · rw [if_neg hlt] at hout
    subst hout
    exact ⟨hbase, le_refl _, hb, hw⟩

theorem swap_mutation_go_spec (fuel : ℕ) (P : GAParams)
    (rs : List SwapMutRand) :
    ∀ (ts : List ℕ) (best out : List (List ℚ) × ℚ),
      calculate_schedule_fitness fuel P
        (convert_to_integer best.1 P.init_status) = some best.2 →
      BinarySched best.1 → WidthSched P.init_status.length best.1 →
      swap_mutation_go fuel P rs ts best = some out →
      calculate_schedule_fitness fuel P
        (convert_to_integer out.1 P.init_status) = some out.2 ∧
      out.2 ≤ best.2 ∧ BinarySched out.1 ∧
      WidthSched P.init_status.length out.1
  | [], best, out, hbase, hb, hw, h => by
    rw [swap_mutation_go] at h
    obtain rfl := Option.some.inj h
    exact ⟨hbase, le_refl _, hb, hw⟩
  | t :: ts, best, out, hbase, hb, hw, h => by
    rw [swap_mutation_go] at h
    cases hstep : swap_mutation_step fuel P t (rs.getD t default) best with
    | none =>
      rw [hstep] at h
      exact absurd h (by simp)
    | some best2 =>
      rw [hstep] at h
      have h' : swap_mutation_go fuel P rs ts best2 = some out := h
      obtain ⟨hf2, hle2, hb2, hw2⟩ :=
        swap_mutation_step_spec fuel P t _ best best2 hbase hb hw hstep
      obtain ⟨hfo, hleo, hbo, hwo⟩ :=
        swap_mutation_go_spec fuel P rs ts best2 out hf2 hb2 hw2 h'
      exact ⟨hfo, le_trans hleo hle2, hbo, hwo⟩

theorem swap_mutation_operator_spec (fuel : ℕ) (P : GAParams)
    (rs : List SwapMutRand) (bs out : List (List ℚ))
    (hb : BinarySched bs) (hw : WidthSched P.init_status.length bs)
    (h : swap_mutation_operator fuel P rs bs = some out) :
    (∃ f0 fout,
      calculate_schedule_fitness fuel P
        (convert_to_integer bs P.init_status) = some f0 ∧
      calculate_schedule_fitness fuel P
        (convert_to_integer out P.init_status) = some fout ∧ fout ≤ f0) ∧
    BinarySched out ∧ WidthSched P.init_status.length out := by
  rw [swap_mutation_operator] at h
  cases hfit : calculate_schedule_fitness fuel P
      (convert_to_integer bs P.init_status) with
  | none =>
    rw [hfit] at h
    exact absurd h (by simp)
  | some f0 =>
    rw [hfit] at h
    have h' : (swap_mutation_go fuel P rs (List.range bs.length)
        (bs, f0)).map Prod.fst = some out := h
    rw [Option.map_eq_some'] at h'
    obtain ⟨bestout, hgo, hfst⟩ := h'
    obtain ⟨hf, hle, hb2, hw2⟩ := swap_mutation_go_spec fuel P rs
      (List.range bs.length) (bs, f0) bestout hfit hb hw hgo
    subst hfst
    exact ⟨⟨f0, bestout.2, rfl, hf, hle⟩, hb2, hw2⟩

theorem swap_window_hc_step_spec (fuel : ℕ) (P : GAParams) (u1 u2 W t : ℕ)
    (best out : List (List ℚ) × ℚ)
    (hbase : calculate_schedule_fitness fuel P
      (convert_to_integer best.1 P.init_status) = some best.2)
    (hb : BinarySched best.1) (hw : WidthSched P.init_status.length best.1)
    (hstep : swap_window_hc_step fuel P u1 u2 W t best = some out) :
    calculate_schedule_fitness fuel P
      (convert_to_integer out.1 P.init_status) = some out.2 ∧
    out.2 ≤ best.2 ∧ BinarySched out.1 ∧
    WidthSched P.init_status.length out.1 := by
  rw [swap_window_hc_step, Option.map_eq_some'] at hstep
  obtain ⟨f, hf, hout⟩ := hstep
  rw [accept_if_better] at hout
  by_cases hlt : f < best.2
  · rw [if_pos hlt] at hout
    subst hout
    exact ⟨hf, le_of_lt hlt,
      swap_window_result_binary best.1 t (t + W) u1 u2 hb,
      swap_window_result_width _ best.1 t (t + W) u1 u2 hw⟩
  · rw [if_neg hlt] at hout
    subst hout
    exact ⟨hbase, le_refl _, hb, hw⟩

theorem swap_window_hc_go_spec (fuel : ℕ) (P : GAParams) (u1 u2 W : ℕ) :
    ∀ (ts : List ℕ) (best out : List (List ℚ) × ℚ),
      calculate_schedule_fitness fuel P
        (convert_to_integer best.1 P.init_status) = some best.2 →
      BinarySched best.1 → WidthSched P.init_status.length best.1 →
      swap_window_hc_go fuel P u1 u2 W ts best = some out →
      calculate_schedule_fitness fuel P
        (convert_to_integer out.1 P.init_status) = some out.2 ∧
      out.2 ≤ best.2 ∧ BinarySched out.1 ∧
      WidthSched P.init_status.length out.1
  | [], best, out, hbase, hb, hw, h => by
    rw [swap_window_hc_go] at h
    obtain rfl := Option.some.inj h
    exact ⟨hbase, le_refl _, hb, hw⟩
  | t :: ts, best, out, hbase, hb, hw, h => by
    rw [swap_window_hc_go] at h
    cases hstep : swap_window_hc_step fuel P u1 u2 W t best with
    | none =>
      rw [hstep] at h
      exact absurd h (by simp)
    | some best2 =>
      rw [hstep] at h
      have h' : swap_window_hc_go fuel P u1 u2 W ts best2 = some out := h
      obtain ⟨hf2, hle2, hb2, hw2⟩ :=
        swap_window_hc_step_spec fuel P u1 u2 W t best best2 hbase hb hw hstep
      obtain ⟨hfo, hleo, hbo, hwo⟩ :=
        swap_window_hc_go_spec fuel P u1 u2 W ts best2 out hf2 hb2 hw2 h'
      exact ⟨hfo, le_trans hleo hle2, hbo, hwo⟩

theorem swap_window_hc_operator_spec (fuel : ℕ) (P : GAParams) (W u1 u2 : ℕ)
    (bs out : List (List ℚ))
    (hb : BinarySched bs) (hw : WidthSched P.init_status.length bs)
    (h : swap_window_hc_operator fuel P W u1 u2 bs = some out) :
    (∃ f0 fout,
      calculate_schedule_fitness fuel P
        (convert_to_integer bs P.init_status) = some f0 ∧
      calculate_schedule_fitness fuel P
        (convert_to_integer out P.init_status) = some fout ∧ fout ≤ f0) ∧
    BinarySched out ∧ WidthSched P.init_status.length out := by
  rw [swap_window_hc_operator] at h
  cases hfit : calculate_schedule_fitness fuel P
      (convert_to_integer bs P.init_status) with
  | none =>
    rw [hfit] at h
    exact absurd h (by simp)
  | some f0 =>
    rw [hfit] at h
    have h' : (swap_window_hc_go fuel P u1 u2 W
        (List.range (bs.length - W)) (bs, f0)).map Prod.fst = some out := h
    rw [Option.map_eq_some'] at h'
    obtain ⟨bestout, hgo, hfst⟩ := h'
    obtain ⟨hf, hle, hb2, hw2⟩ := swap_window_hc_go_spec fuel P u1 u2 W
      (List.range (bs.length - W)) (bs, f0) bestout hfit hb hw hgo
    subst hfst
    exact ⟨⟨f0, bestout.2, rfl, hf, hle⟩, hb2, hw2⟩

theorem best_genotype_mem : ∀ (g : Genotype) (l : List Genotype),
    best_genotype g l ∈ g :: l
  | _, [] => List.mem_cons_self _ _
  | g, h :: t => by
    rw [best_genotype]
    by_cases hlt : h.fitness < g.fitness
    · rw [if_pos hlt]
      exact List.mem_cons_of_mem g (best_genotype_mem h t)
    · rw [if_neg hlt]
      rcases List.mem_cons.mp (best_genotype_mem g t) with h1 | h2
      · rw [h1]
        exact List.mem_cons_self g (h :: t)
      · exact List.mem_cons_of_mem g (List.mem_cons_of_mem h h2)

theorem best_genotype_le : ∀ (g : Genotype) (l : List Genotype),
    ∀ x ∈ g :: l, (best_genotype g l).fitness ≤ x.fitness
  | g, [], x, hx => by
    rcases List.mem_cons.mp hx with h1 | h2
    · rw [best_genotype, h1]
    · exact absurd h2 (List.not_mem_nil x)
  | g, h :: t, x, hx => by
    rw [best_genotype]
    by_cases hlt : h.fitness < g.fitness
    · rw [if_pos hlt]
      rcases List.mem_cons.mp hx with h1 | h2
      · rw [h1]
        exact le_trans (best_genotype_le h t h (List.mem_cons_self h t))
          (le_of_lt hlt)
      · exact best_genotype_le h t x h2
    · rw [if_neg hlt]
      rcases List.mem_cons.mp hx with h1 | h2
      · rw [h1]
        exact best_genotype_le g t g (List.mem_cons_self g t)
      · rcases List.mem_cons.mp h2 with h3 | h4
        · rw [h3]
          exact le_trans (best_genotype_le g t g (List.mem_cons_self g t))
            (le_of_not_lt hlt)
        · exact best_genotype_le g t x (List.mem_cons_of_mem g h4)

theorem remove_genotype_subset : ∀ (l : List Genotype) (g x : Genotype),
    x ∈ remove_genotype l g → x ∈ l
  | [], g, x, hx => absurd hx (List.not_mem_nil x)
  | h :: t, g, x, hx => by
    rw [remove_genotype] at hx
    by_cases he : h = g
    · rw [if_pos he] at hx
      exact List.mem_cons_of_mem h hx
    · rw [if_neg he] at hx
      rcases List.mem_cons.mp hx with rfl | h2
      · exact List.mem_cons_self x t
      · exact List.mem_cons_of_mem h (remove_genotype_subset t g x h2)

theorem generate_offspring_spec (fuel : ℕ) (P : GAParams) (r : OffspringRand)
    (g1 g2 o1 o2 : Genotype)
    (hw1 : WidthSched P.init_status.length g1.schedule)
    (hw2 : WidthSched P.init_status.length g2.schedule)
    (h : generate_offspring fuel P r g1 g2 = some (o1, o2)) :
    (SchedOk P.init_status o1 ∧ FitOk fuel P o1) ∧
    (SchedOk P.init_status o2 ∧ FitOk fuel P o2) := by
  rw [generate_offspring, Option.bind_eq_some] at h
  obtain ⟨a, ha, hmap⟩ := h
  rw [Option.map_eq_some'] at hmap
  obtain ⟨b, hb, hpair⟩ := hmap
  have ho1 : a = o1 := congrArg Prod.fst hpair
  have ho2 : b = o2 := congrArg Prod.snd hpair
  subst ho1
  subst ho2
  obtain ⟨hs1, hf1⟩ := make_genotype_some fuel P _ a ha
  obtain ⟨hs2, hf2⟩ := make_genotype_some fuel P _ b hb
  refine ⟨⟨⟨offspring_binary1 P r (convert_to_binary g1.schedule)
      (convert_to_binary g2.schedule), ?_, ?_, hs1⟩, ?_⟩,
    ⟨⟨offspring_binary2 P r (convert_to_binary g1.schedule)
      (convert_to_binary g2.schedule), ?_, ?_, hs2⟩, ?_⟩⟩
  · exact offspring_binary1_binary P r _ _ (convert_to_binary_binary _)
      (convert_to_binary_binary _)
  · exact offspring_binary1_width _ P r _ _ (convert_to_binary_width _ _ hw1)
  · rw [FitOk, hs1]
    exact hf1
  · exact offspring_binary2_binary P r _ _ (convert_to_binary_binary _)
      (convert_to_binary_binary _)
  · exact offspring_binary2_width _ P r _ _ (convert_to_binary_width _ _ hw2)
  · rw [FitOk, hs2]
    exact hf2

theorem getD_parent_width (P : GAParams) (parents : List Genotype)
    (hpar : ∀ gt ∈ parents, WidthSched P.init_status.length gt.schedule)
    (i : ℕ) :
    WidthSched P.init_status.length (parents.getD i default).schedule := by
  by_cases hi : i < parents.length
  · exact hpar _ (by rw [List.getD_eq_getElem _ _ hi]; exact List.getElem_mem hi)
  · rw [List.getD_eq_default _ _ (le_of_not_lt hi)]
    intro r hr
    exact absurd hr (List.not_mem_nil r)

theorem fill_population_spec (fuel : ℕ) (P : GAParams)
    (parents : List Genotype)
    (hpar : ∀ gt ∈ parents, WidthSched P.init_status.length gt.schedule) :
    ∀ (n : ℕ) (rs : List ((ℕ × ℕ) × OffspringRand)) (pop out : List Genotype),
      P.pop_size - pop.length ≤ n →
      fill_population fuel P parents rs pop = some out →
      (∃ tl, out = pop ++ tl) ∧
      ∀ gt ∈ out, gt ∈ pop ∨ (SchedOk P.init_status gt ∧ FitOk fuel P gt)
  | 0, rs, pop, out, hn, hfill => by
    have hge : ¬ pop.length < P.pop_size := by omega
    rw [fill_population.eq_def, dif_neg hge] at hfill
    obtain rfl := Option.some.inj hfill
    exact ⟨⟨[], (List.append_nil pop).symm⟩, fun gt hgt => Or.inl hgt⟩
  | n + 1, rs, pop, out, hn, hfill => by
    by_cases hlt : pop.length < P.pop_size
    · rw [fill_population.eq_def, dif_pos hlt] at hfill
      cases hgen : generate_offspring fuel P (rs.headD default).2
          (parents.getD (rs.headD default).1.1 default)
          (parents.getD (rs.headD default).1.2 default) with
      | none =>
        rw [hgen] at hfill
        exact absurd hfill (by simp)
      | some oo =>
        obtain ⟨o1, o2⟩ := oo
        rw [hgen] at hfill
        have hfill' : fill_population fuel P parents rs.tail
            (pop ++ [o1, o2]) = some out := hfill
        have hoo := generate_offspring_spec fuel P (rs.headD default).2 _ _
          o1 o2 (getD_parent_width P parents hpar _)
          (getD_parent_width P parents hpar _) hgen
        obtain ⟨⟨tl, htl⟩, hmem⟩ := fill_population_spec fuel P parents hpar
          n rs.tail (pop ++ [o1, o2]) out (by simp; omega) hfill'
        refine ⟨⟨[o1, o2] ++ tl, by rw [htl, List.append_assoc]⟩, ?_⟩
        intro gt hgt
        rcases hmem gt hgt with hin | hok
        · rcases List.mem_append.mp hin with hp | ho
          · exact Or.inl hp
          · rcases List.mem_cons.mp ho with rfl | ho2
            · exact Or.inr hoo.1
            · rcases List.mem_cons.mp ho2 with rfl | ho3
              · exact Or.inr hoo.2
              · exact absurd ho3 (List.not_mem_nil gt)
        · exact Or.inr hok
    · rw [fill_population.eq_def, dif_neg hlt] at hfill
      obtain rfl := Option.some.inj hfill
      exact ⟨⟨[], (List.append_nil pop).symm⟩, fun gt hgt => Or.inl hgt⟩

theorem mapM_option_spec {α β : Type} (f : α → Option β) :
    ∀ (l : List α) (out : List β), l.mapM f = some out →
      out.length = l.length ∧ ∀ b ∈ out, ∃ a ∈ l, f a = some b
  | [], out, h => by
    rw [List.mapM_nil, Option.pure_def] at h
    obtain rfl := Option.some.inj h
    exact ⟨rfl, fun b hb => absurd hb (List.not_mem_nil b)⟩
  | a :: l, out, h => by
    rw [List.mapM_cons] at h
    simp only [Option.bind_eq_bind, Option.pure_def, Option.bind_eq_some,
      Option.some.injEq] at h
    obtain ⟨b, hb, bs, hbs, hout⟩ := h
    obtain ⟨hlen, hmem⟩ := mapM_option_spec f l bs hbs
    subst hout
    refine ⟨by simp [hlen], ?_⟩
    intro c hc
    rcases List.mem_cons.mp hc with rfl | hc2
    · exact ⟨a, List.mem_cons_self a l, hb⟩
    · obtain ⟨a', ha', hfa'⟩ := hmem c hc2
      exact ⟨a', List.mem_cons_of_mem a ha', hfa'⟩

theorem nonincreasing_concat (l : List ℚ) (x : ℚ)
    (hni : nonincreasing l)
    (hx : ∀ y, l.getLast? = some y → x ≤ y) :
    nonincreasing (l ++ [x]) := by
  intro i hi
  rw [List.length_append, List.length_singleton] at hi
  by_cases hiL : i + 1 < l.length
  · rw [List.getD_append _ _ _ _ hiL, List.getD_append _ _ _ _ (by omega)]
    exact hni i hiL
  · have hieq : i + 1 = l.length := by omega
    have hil : i < l.length := by omega
    rw [List.getD_append _ _ _ _ hil]
    rw [List.getD_eq_getElem?_getD, hieq,
      List.getElem?_append_right (le_refl l.length), Nat.sub_self]
    have hy : l.getLast? = some (l.getD i 0) := by
      rw [List.getLast?_eq_getElem?, ← hieq, Nat.add_sub_cancel,
        List.getElem?_eq_getElem hil, List.getD_eq_getElem?_getD,
        List.getElem?_eq_getElem hil]
      rfl
    simpa using hx _ hy

theorem seed_population_spec (fuel : ℕ) (P : GAParams)
    (seeds : List (List (List ℚ))) (parents : List Genotype)
    (hsb : ∀ s ∈ seeds, BinarySched s)
    (hsw : ∀ s ∈ seeds, WidthSched P.init_status.length s)
    (h : seed_population fuel P seeds = some parents) :
    parents.length = P.pop_size ∧
    ∀ gt ∈ parents, SchedOk P.init_status gt ∧ FitOk fuel P gt := by
  rw [seed_population] at h
  obtain ⟨hlen, hm⟩ := mapM_option_spec _ _ _ h
  refine ⟨hlen.trans (List.length_range _), ?_⟩
  intro gt hgt
  obtain ⟨i, _, hfi⟩ := hm gt hgt
  obtain ⟨hsch, hfit⟩ := make_genotype_some fuel P _ gt hfi
  have hsb' : BinarySched (seeds.getD i []) := by
    by_cases hlt : i < seeds.length
    · exact hsb _
        (by rw [List.getD_eq_getElem _ _ hlt]; exact List.getElem_mem hlt)
    · rw [List.getD_eq_default _ _ (le_of_not_lt hlt)]
      intro r hr
      exact absurd hr (List.not_mem_nil r)
  have hsw' : WidthSched P.init_status.length (seeds.getD i []) := by
    by_cases hlt : i < seeds.length
    · exact hsw _
        (by rw [List.getD_eq_getElem _ _ hlt]; exact List.getElem_mem hlt)
    · rw [List.getD_eq_default _ _ (le_of_not_lt hlt)]
      intro r hr
      exact absurd hr (List.not_mem_nil r)
  exact ⟨⟨seeds.getD i [], hsb', hsw', hsch⟩, by rw [FitOk, hsch]; exact hfit⟩

/-- One generation preserves the population invariants; the new best
genotype is well-formed, and — provided the incoming elite's stored
fitness is honest — no worse than the incoming elite. -/
theorem run_generation_spec (fuel : ℕ) (Q : GAParams) (r : GenerationRand)
    (parents : List Genotype) (best1 : Genotype)
    (new_pop : List Genotype) (new_best : Genotype)
    (hpar : ∀ gt ∈ parents, WidthSched Q.init_status.length gt.schedule)
    (hs1 : SchedOk Q.init_status best1)
    (h : run_generation fuel Q r parents best1 = some (new_pop, new_best)) :
    (∀ gt ∈ new_pop, WidthSched Q.init_status.length gt.schedule) ∧
    SchedOk Q.init_status new_best ∧ FitOk fuel Q new_best ∧
    (FitOk fuel Q best1 → new_best.fitness ≤ best1.fitness) := by
  rw [run_generation, Option.bind_eq_some] at h
  obtain ⟨pop2, hfill, hcore⟩ := h
  obtain ⟨⟨tl, htl⟩, hmem⟩ := fill_population_spec fuel Q parents hpar
    Q.pop_size r.sel_pairs [best1] pop2 (Nat.sub_le _ _) hfill
  subst htl
  have hok : ∀ gt ∈ [best1] ++ tl, SchedOk Q.init_status gt := by
    intro gt hgt
    rcases hmem gt hgt with hin | hgood
    · rw [List.mem_singleton.mp hin]
      exact hs1
    · exact hgood.1
  have hebof : best_genotype_of ([best1] ++ tl) default =
      best_genotype best1 tl := rfl
  obtain ⟨bs, hbsb, hbsw, hsch⟩ :=
    hok (best_genotype best1 tl) (best_genotype_mem best1 tl)
  have hcb : convert_to_binary (best_genotype best1 tl).schedule = bs := by
    rw [hsch]
    exact toBinary_toInteger_id bs Q.init_status hbsb hbsw
  rw [run_generation_core, hebof, Option.bind_eq_some] at hcore
  obtain ⟨bs1, hsm, hreg⟩ := hcore
  obtain ⟨⟨f0, fout, hf0, hfout, hle1⟩, hb1, hw1⟩ :=
    swap_mutation_operator_spec fuel Q r.swap_mut
      (convert_to_binary (best_genotype best1 tl).schedule) bs1
      (by rw [hcb]; exact hbsb) (by rw [hcb]; exact hbsw) hsm
  have hf0' : calculate_schedule_fitness fuel Q
      (best_genotype best1 tl).schedule = some f0 := by
    rw [hcb, ← hsch] at hf0
    exact hf0
  rw [hc_and_register, Option.bind_eq_some] at hreg
  obtain ⟨bs2, hhc, hreg2⟩ := hreg
  have hbs2 : ∃ f2, calculate_schedule_fitness fuel Q
      (convert_to_integer bs2 Q.init_status) = some f2 ∧ f2 ≤ fout ∧
      BinarySched bs2 ∧ WidthSched Q.init_status.length bs2 := by
    by_cases hr : r.hc_r < Q.swap_window_hc_probability
    · rw [if_pos hr] at hhc
      obtain ⟨⟨f0', fout', hf0'', hfout'', hle''⟩, hb2, hw2⟩ :=
        swap_window_hc_operator_spec fuel Q r.hc_W r.hc_units.1 r.hc_units.2
          bs1 bs2 hb1 hw1 hhc
      have heq : fout = f0' := Option.some.inj (hfout.symm.trans hf0'')
      exact ⟨fout', hfout'', hle''.trans (le_of_eq heq.symm), hb2, hw2⟩
    · rw [if_neg hr] at hhc
      obtain rfl := Option.some.inj hhc
      exact ⟨fout, hfout, le_refl _, hb1, hw1⟩
  obtain ⟨f2, hfit2, hle2, hb2, hw2⟩ := hbs2
  rw [register_best, Option.map_eq_some'] at hreg2
  obtain ⟨nb, hmk, hpr⟩ := hreg2
  have hnp : remove_genotype ([best1] ++ tl) (best_genotype best1 tl) ++
      [nb] = new_pop := congrArg Prod.fst hpr
  have hnb : nb = new_best := congrArg Prod.snd hpr
  subst hnb
  subst hnp
  obtain ⟨hnbs, hnbf⟩ := make_genotype_some fuel Q _ nb hmk
  have hfeq : f2 = nb.fitness := Option.some.inj (hfit2.symm.trans hnbf)
  refine ⟨?_, ⟨bs2, hb2, hw2, hnbs⟩, ?_, ?_⟩
  · intro gt hgt
    rcases List.mem_append.mp hgt with hin | hx
    · exact sched_ok_width
        (hok gt (remove_genotype_subset _ _ gt hin))
    · rw [List.mem_singleton.mp hx, hnbs]
      exact convert_to_integer_width _ bs2 Q.init_status hw2 rfl
  · rw [FitOk, hnbs]
    exact hnbf
  · intro hfb1
    have hfe : FitOk fuel Q (best_genotype best1 tl) := by
      rcases hmem _ (best_genotype_mem best1 tl) with hin | hgood
      · rw [List.mem_singleton.mp hin]
        exact hfb1
      · exact hgood.2
    have heq0 : f0 = (best_genotype best1 tl).fitness :=
      Option.some.inj (hf0'.symm.trans hfe)
    calc nb.fitness = f2 := hfeq.symm
      _ ≤ fout := hle2
      _ ≤ f0 := hle1
      _ = (best_genotype best1 tl).fitness := heq0
      _ ≤ best1.fitness :=
          best_genotype_le best1 tl best1 (List.mem_cons_self best1 tl)

/-- With `max_penalty = 0`, every generation runs with constraint penalty
`0`, and the recorded best-fitness sequence only ever extends
non-increasingly. -/
theorem run_ga_loop_mono (fuel : ℕ) (P : GAParams) (nG : ℕ)
    (hmp : P.max_penalty = 0) :
    ∀ (left g : ℕ) (rs : List GenerationRand) (parents : List Genotype)
      (best1 : Genotype) (results : List ℚ)
      (out : Genotype × List ℚ × List Genotype),
      (∀ gt ∈ parents,
        WidthSched (set_penalty P 0).init_status.length gt.schedule) →
      SchedOk (set_penalty P 0).init_status best1 →
      nonincreasing results →
      (results = [] ∨ (FitOk fuel (set_penalty P 0) best1 ∧
        ∀ y, results.getLast? = some y → best1.fitness ≤ y)) →
      run_ga_loop fuel P nG left g rs parents best1 results = some out →
      nonincreasing out.2.1
  | 0, g, rs, parents, best1, results, out, _, _, hni, _, hrun => by
    rw [run_ga_loop] at hrun
    obtain rfl := Option.some.inj hrun
    exact hni
  | left + 1, g, rs, parents, best1, results, out, hw, hs, hni, hlast,
      hrun => by
    rw [run_ga_loop, hmp, zero_mul, zero_div] at hrun
    cases hgen : run_generation fuel (set_penalty P 0) (rs.headD default)
        parents best1 with
    | none =>
      rw [hgen] at hrun
      exact absurd hrun (by simp)
    | some pr =>
      obtain ⟨new_pop, new_best⟩ := pr
      rw [hgen] at hrun
      have hrun' : run_ga_loop fuel P nG left (g + 1) rs.tail new_pop
          new_best (results ++ [new_best.fitness]) = some out := hrun
      obtain ⟨hw', hs', hf', hle'⟩ := run_generation_spec fuel
        (set_penalty P 0) (rs.headD default) parents best1 new_pop new_best
        hw hs hgen
      refine run_ga_loop_mono fuel P nG hmp left (g + 1) rs.tail new_pop
        new_best (results ++ [new_best.fitness]) out hw' hs' ?_ ?_ hrun'
      · refine nonincreasing_concat results new_best.fitness hni ?_
        rcases hlast with rfl | ⟨hfk, hl⟩
        · intro y hy
          rw [List.getLast?_nil] at hy
          exact absurd hy (by simp)
        · intro y hy
          exact le_trans (hle' hfk) (hl y hy)
      · refine Or.inr ⟨hf', ?_⟩
        intro y hy
        rw [List.getLast?_concat] at hy
        rw [Option.some.inj hy]

/-- C9 (amended): the claim fails as stated because the constraint penalty
ramps up between generations (`max_penalty * (g+1) / number_of_generations`),
so a re-evaluated but unchanged elite schedule can be recorded with a
strictly larger fitness.  With `max_penalty = 0` (a constant zero ramp) the
elitism argument is sound: the elite is carried into each new population,
the two hill climbs only accept improving moves, re-encoding the elite's
binary schedule is lossless, so for every run of the driver and any outcome
of the random draws the recorded best-fitness sequence is non-increasing. -/
theorem run_genetic_algorithm_monotone_const_penalty (fuel : ℕ)
    (P : GAParams) (nG : ℕ) (seeds : List (List (List ℚ)))
    (rs : List GenerationRand) (out : Genotype × List ℚ × List Genotype)
    (hmp : P.max_penalty = 0) (hpos : 0 < P.pop_size)
    (hsb : ∀ s ∈ seeds, BinarySched s)
    (hsw : ∀ s ∈ seeds, WidthSched P.init_status.length s)
    (h : run_genetic_algorithm fuel P nG seeds rs = some out) :
    nonincreasing out.2.1 := by
  rw [run_genetic_algorithm] at h
  cases hseed : seed_population fuel P seeds with
  | none =>
    rw [hseed] at h
    exact absurd h (by simp)
  | some parents =>
    rw [hseed] at h
    obtain ⟨hlen, hm⟩ := seed_population_spec fuel P seeds parents hsb hsw
      hseed
    cases parents with
    | nil =>
      rw [List.length_nil] at hlen
      omega
    | cons p ps =>
      have hb := best_genotype_mem p ps
      refine run_ga_loop_mono fuel P nG hmp nG 0 rs (p :: ps)
        (best_genotype p ps) [] out ?_ ?_ ?_ (Or.inl rfl) h
      · intro gt hgt
        exact sched_ok_width (hm gt hgt).1
      · exact (hm _ hb).1
      · intro i hi
        exact absurd hi (by simp)

theorem run_genetic_algorithm_monotone_const_penalty_witness :
    nonincreasing [10400 + (0 : ℚ) / 2, 10400 + 0] := by
  refine run_genetic_algorithm_monotone_const_penalty 1
    (ga_example_params 0 0) 2 [[[1]], [[1]]]
    [ga_example_gen_rand, ga_example_gen_rand]
    (⟨[[2]], 10400 + 0⟩, [10400 + 0 / 2, 10400 + 0],
      [⟨[[2]], 10400 + 0⟩, ⟨[[2]], 10400 + 0⟩, ⟨[[2]], 10400 + 0⟩])
    rfl (by decide) ?_ ?_ (ga_example_run 0 le_rfl)
  · intro s hs
    rcases List.mem_cons.mp hs with rfl | hs2
    · intro r hr x hx
      rw [List.mem_singleton.mp hr] at hx
      rw [List.mem_singleton.mp hx]
      exact Or.inr rfl
    · rw [List.mem_singleton.mp hs2]
      intro r hr x hx
      rw [List.mem_singleton.mp hr] at hx
      rw [List.mem_singleton.mp hx]
      exact Or.inr rfl
  · intro s hs
    rcases List.mem_cons.mp hs with rfl | hs2
    · intro r hr
      rw [List.mem_singleton.mp hr]
      rfl
    · rw [List.mem_singleton.mp hs2]
      intro r hr
      rw [List.mem_singleton.mp hr]
      rfl

end UCGA
